import Mathlib

/-
Verification of the buffer pool manager in src/buffer_mgr.c.

The pool is a circular doubly-linked list of N page frames created in
order (frame 0, 1, ..., N-1); `head` and `tail` are cursor positions into
that list, and `start` always points at frame 0.  We represent the list as
a `List PageFrame` in creation order; the successor of index i is
(i + 1) % N and the predecessor is (i + N - 1) % N, exactly the links
`next`/`prev` realise in the C code.  Machine ints that can go negative
(page numbers, fix counts) are `Int`; counters that only grow are `Nat`.
The storage manager (openPageFile / readBlock / writeBlock /
ensureCapacity) is not part of src/, so it is modelled from the spec's
contract for it; the page file is a growable list of page images, with a
page image abstracted to a single `Nat` value.
-/

set_option maxRecDepth 8000

/-- Result codes of the storage manager and buffer manager interfaces
(spec section 6). -/
inductive RC where
  | RC_OK
  | RC_FILE_NOT_FOUND
  | RC_WRITE_FAILED
  | RC_READ_NON_EXISTING_PAGE
  | RC_NO_FREE_FRAME
  | RC_PAGE_NOT_IN_POOL
  | RC_POOL_IN_USE
  | RC_UNPIN_UNDERFLOW
deriving DecidableEq, Repr

open RC

/-- Sentinel page number of an empty frame. -/
def NO_PAGE : Int := -1

/-- One page frame of the pool: struct PageFrame in buffer_mgr.c.
The `next`/`prev` links are represented positionally (successor of index i
is (i+1) % N), and the constant-0 `frameNum` field is dropped.  A page
image (`data`, PAGE_SIZE bytes in C) is abstracted to one `Nat`. -/
structure PageFrame where
  pageNum : Int
  dirtyFlagSignal : Bool
  fixCount : Int
  referenceBit : Bool
  data : Nat
deriving DecidableEq, Repr

/-- The initial value of every frame created by createPageFrame. -/
def emptyFrame : PageFrame :=
  { pageNum := NO_PAGE, dirtyFlagSignal := false, fixCount := 0,
    referenceBit := false, data := 0 }

/-- The three replacement strategies dispatched by pinPage. -/
inductive ReplacementStrategy where
  | RS_FIFO
  | RS_LRU
  | RS_CLOCK
deriving DecidableEq, Repr

open ReplacementStrategy

/-- BM_BufferPool together with its BM_BufferPool_Mgmt record.
`frames` is the circular list in creation order, `head`/`tail` are the
cursor indices, and numPages of the C struct is `frames.length`. -/
structure BM_BufferPool where
  frames : List PageFrame
  head : Nat
  tail : Nat
  occupiedFrameCount : Nat
  getNumReadIo : Nat
  getNumWriteIo : Nat
deriving DecidableEq, Repr

/-- Modelled from the spec: the page file handled by the storage manager,
a sequence of page images; ensureCapacity appends zero-filled pages. -/
structure Disk where
  pages : List Nat
deriving DecidableEq, Repr

/-- Modelled from the spec: storage-manager ensureCapacity(numPages) grows
the file with zero-filled pages until it has at least numPages pages. -/
def ensureCapacity (n : Int) (d : Disk) : Disk :=
  if (d.pages.length : Int) < n then
    ⟨d.pages ++ List.replicate (n - (d.pages.length : Int)).toNat 0⟩
  else d

/-- Modelled from the spec: storage-manager readBlock, which fails
(read-non-existing-page) iff the requested block does not exist. -/
def readBlock (p : Int) (d : Disk) : Option Nat :=
  if 0 ≤ p ∧ p < (d.pages.length : Int) then some (d.pages.getD p.toNat 0)
  else none

/-- Modelled from the spec: storage-manager writeBlock, which fails
(write-failed) iff the destination block does not exist. -/
def writeBlock (p : Int) (c : Nat) (d : Disk) : Option Disk :=
  if 0 ≤ p ∧ p < (d.pages.length : Int) then some ⟨d.pages.set p.toNat c⟩
  else none

/-- The frame stored at position i of the circular list. -/
def frameAt (p : BM_BufferPool) (i : Nat) : PageFrame :=
  p.frames.getD i emptyFrame

/-- Replace the frame at position i by g applied to it. -/
def updateFrame (fs : List PageFrame) (i : Nat) (g : PageFrame → PageFrame) :
    List PageFrame :=
  fs.set i (g (fs.getD i emptyFrame))

/-- The index positions visited by a do-while walk of the circular list
that starts at `start` and stops on returning to `start`: n frames. -/
def scanFrom (n start : Nat) : List Nat :=
  (List.range n).map (fun k => (start + k) % n)

/-- The index positions whose fix count the FIFO victim loop examines:
it starts at `tl` and exits as soon as an advance lands on `hd`, so it
sees tl, tl+1, ..., hd-1 (cyclically), or the whole list when tl = hd. -/
def fifoVictimOrder (n tl hd : Nat) : List Nat :=
  (List.range (if tl = hd then n else (hd + n - tl) % n)).map
    (fun k => (tl + k) % n)

/-- The linear search every access routine performs: walk the circular
list from `head` and return the first position whose frame holds page n. -/
def findFrom (p : BM_BufferPool) (n : Int) : Option Nat :=
  (scanFrom p.frames.length p.head).find?
    (fun i => (p.frames.getD i emptyFrame).pageNum == n)

/-- The shared tail of every pin routine: ensureCapacity(pageNum + 1),
readBlock into the frame at position i, and on success count the read and
fill the page handle; on failure return read-non-existing-page with the
frame left exactly as the caller set it up. -/
def readIntoFrame (p : BM_BufferPool) (d : Disk) (i : Nat) (n : Int) :
    RC × BM_BufferPool × Disk × Option (Int × Nat) :=
  let d1 := ensureCapacity (n + 1) d
  match readBlock n d1 with
  | none => (RC_READ_NON_EXISTING_PAGE, p, d1, none)
  | some c =>
      (RC_OK,
       { p with frames := updateFrame p.frames i (fun f => { f with data := c }),
                getNumReadIo := p.getNumReadIo + 1 },
       d1, some (n, c))

/-- The shared empty-frame path of the three pin routines: bind the frame
at `head` to the new page, advance head unless the frame is its own
successor, raise the fix count and the occupancy count.  CLOCK
additionally sets the reference bit. -/
def bindEmptyFrame (p : BM_BufferPool) (n : Int) (setRef : Bool) : BM_BufferPool :=
  let i := p.head
  let len := p.frames.length
  { p with
    frames := updateFrame p.frames i (fun f =>
      { f with pageNum := n, fixCount := f.fixCount + 1,
               referenceBit := if setRef then true else f.referenceBit }),
    head := if (i + 1) % len ≠ i then (i + 1) % len else i,
    occupiedFrameCount := p.occupiedFrameCount + 1 }

/-- The shared dirty-victim write-back of the three pin routines:
ensureCapacity(victim.pageNum) (note: not pageNum + 1), writeBlock, and on
success count the write; the dirty bit is not cleared.  On failure the
error carries the disk as extended by ensureCapacity. -/
def flushVictim (p : BM_BufferPool) (d : Disk) (v : Nat) :
    Except Disk (BM_BufferPool × Disk) :=
  let f := p.frames.getD v emptyFrame
  if f.dirtyFlagSignal then
    let d1 := ensureCapacity f.pageNum d
    match writeBlock f.pageNum f.data d1 with
    | none => Except.error d1
    | some d2 => Except.ok ({ p with getNumWriteIo := p.getNumWriteIo + 1 }, d2)
  else Except.ok (p, d)

/-- pinPageFIFO of buffer_mgr.c.  Hit: raise the fix count and hand out
the frame.  Miss with an empty frame: bind at head.  Miss on a full pool:
scan from tail for a frame with fix count 0 (the loop stops on reaching
head), write it back if dirty, rebind it and move head/tail; if the scan
finds no victim the code falls through and reads the page into the frame
at head without rebinding it.  Finally read the page from disk. -/
def pinPageFIFO (p : BM_BufferPool) (d : Disk) (n : Int) :
    RC × BM_BufferPool × Disk × Option (Int × Nat) :=
  match findFrom p n with
  | some j =>
      (RC_OK,
       { p with frames := updateFrame p.frames j (fun f =>
           { f with pageNum := n, fixCount := f.fixCount + 1 }) },
       d, some (n, (p.frames.getD j emptyFrame).data))
  | none =>
      if p.occupiedFrameCount < p.frames.length then
        readIntoFrame (bindEmptyFrame p n false) d p.head n
      else
        match (fifoVictimOrder p.frames.length p.tail p.head).find?
            (fun i => (p.frames.getD i emptyFrame).fixCount == 0) with
        | none => readIntoFrame p d p.head n
        | some v =>
            match flushVictim p d v with
            | Except.error d1 => (RC_WRITE_FAILED, p, d1, none)
            | Except.ok (p1, d2) =>
                let p2 :=
                  { p1 with
                    frames := updateFrame p1.frames v (fun f =>
                      { f with pageNum := n, fixCount := f.fixCount + 1 }),
                    tail := (v + 1) % p1.frames.length,
                    head := v }
                readIntoFrame p2 d2 v n

/-- pinPageLRU of buffer_mgr.c.  A hit moves head to the hit frame and
tail to the old head's successor.  The full-pool loop scans from tail
(stopping on returning to tail); after the optional write-back it
rebinds the found frame when tail differs from head, and otherwise
rebinds the found frame's successor, resetting head and tail around it.
No victim found falls through and reads into the frame at tail. -/
def pinPageLRU (p : BM_BufferPool) (d : Disk) (n : Int) :
    RC × BM_BufferPool × Disk × Option (Int × Nat) :=
  match findFrom p n with
  | some j =>
      (RC_OK,
       { p with
         frames := updateFrame p.frames j (fun f =>
           { f with pageNum := n, fixCount := f.fixCount + 1 }),
         tail := (p.head + 1) % p.frames.length,
         head := j },
       d, some (n, (p.frames.getD j emptyFrame).data))
  | none =>
      if p.occupiedFrameCount < p.frames.length then
        readIntoFrame (bindEmptyFrame p n false) d p.head n
      else
        match (scanFrom p.frames.length p.tail).find?
            (fun i => (p.frames.getD i emptyFrame).fixCount == 0) with
        | none => readIntoFrame p d p.tail n
        | some v =>
            match flushVictim p d v with
            | Except.error d1 => (RC_WRITE_FAILED, p, d1, none)
            | Except.ok (p1, d2) =>
                if p.tail ≠ p.head then
                  let p2 :=
                    { p1 with
                      frames := updateFrame p1.frames v (fun f =>
                        { f with pageNum := n, fixCount := f.fixCount + 1 }),
                      tail := (v + 1) % p1.frames.length }
                  readIntoFrame p2 d2 v n
                else
                  let len := p1.frames.length
                  let w := (v + 1) % len
                  let p2 :=
                    { p1 with
                      frames := updateFrame p1.frames w (fun f =>
                        { f with pageNum := n, fixCount := f.fixCount + 1 }),
                      head := w,
                      tail := (w + len - 1) % len }
                  readIntoFrame p2 d2 w n

/-- The inner while loop of pinPageCLOCK: starting at position i, clear
the reference bit of every visited frame while it is set, advancing to
the successor, and stop at the first frame whose reference bit is clear.
Fuel length+1 always suffices because a full sweep clears the starting
frame. -/
def clockSweep : Nat → List PageFrame → Nat → Nat × List PageFrame
  | 0, fs, i => (i, fs)
  | fuel + 1, fs, i =>
      if (fs.getD i emptyFrame).referenceBit then
        clockSweep fuel
          (updateFrame fs i (fun f => { f with referenceBit := false }))
          ((i + 1) % fs.length)
      else (i, fs)

/-- pinPageCLOCK of buffer_mgr.c.  A hit sets the reference bit and the
fix count.  The full-pool loop scans from head for a frame with fix count
0 (stopping on returning to head); from there the inner sweep clears
reference bits until it lands on a frame with a clear bit, and that frame
is rebound without any further fix-count check.  No unpinned frame found
falls through and reads into the frame at head. -/
def pinPageCLOCK (p : BM_BufferPool) (d : Disk) (n : Int) :
    RC × BM_BufferPool × Disk × Option (Int × Nat) :=
  match findFrom p n with
  | some j =>
      (RC_OK,
       { p with frames := updateFrame p.frames j (fun f =>
           { f with referenceBit := true, pageNum := n,
                    fixCount := f.fixCount + 1 }) },
       d, some (n, (p.frames.getD j emptyFrame).data))
  | none =>
      if p.occupiedFrameCount < p.frames.length then
        readIntoFrame (bindEmptyFrame p n true) d p.head n
      else
        match (scanFrom p.frames.length p.head).find?
            (fun i => (p.frames.getD i emptyFrame).fixCount == 0) with
        | none => readIntoFrame p d p.head n
        | some q =>
            let sw := clockSweep (p.frames.length + 1) p.frames q
            let v := sw.1
            let pS := { p with frames := sw.2 }
            match flushVictim pS d v with
            | Except.error d1 => (RC_WRITE_FAILED, pS, d1, none)
            | Except.ok (p1, d2) =>
                let p2 :=
                  { p1 with
                    frames := updateFrame p1.frames v (fun f =>
                      { f with referenceBit := true, pageNum := n,
                               fixCount := f.fixCount + 1 }),
                    head := (v + 1) % p1.frames.length }
                readIntoFrame p2 d2 v n

/-- pinPage of buffer_mgr.c: dispatch on the strategy, discard the return
code of the strategy routine, and return RC_OK. -/
def pinPage (s : ReplacementStrategy) (p : BM_BufferPool) (d : Disk) (n : Int) :
    RC × BM_BufferPool × Disk × Option (Int × Nat) :=
  let r :=
    match s with
    | RS_FIFO => pinPageFIFO p d n
    | RS_LRU => pinPageLRU p d n
    | RS_CLOCK => pinPageCLOCK p d n
  (RC_OK, r.2.1, r.2.2.1, r.2.2.2)

/-- markDirty of buffer_mgr.c: set the dirty flag of the first frame
found holding the handle's page; RC_OK is returned whether or not such a
frame exists. -/
def markDirty (p : BM_BufferPool) (n : Int) : RC × BM_BufferPool :=
  match findFrom p n with
  | some j =>
      (RC_OK, { p with frames := updateFrame p.frames j (fun f =>
        { f with dirtyFlagSignal := true }) })
  | none => (RC_OK, p)

/-- unpinPage of buffer_mgr.c: decrement the fix count of the first frame
found holding the handle's page, with no underflow check; RC_OK is
returned whether or not such a frame exists. -/
def unpinPage (p : BM_BufferPool) (n : Int) : RC × BM_BufferPool :=
  match findFrom p n with
  | some j =>
      (RC_OK, { p with frames := updateFrame p.frames j (fun f =>
        { f with fixCount := f.fixCount - 1 }) })
  | none => (RC_OK, p)

/-- forcePage of buffer_mgr.c: find the first frame that holds the
handle's page and is dirty, write it back (no ensureCapacity first), and
on success clear the dirty flag and count the write. -/
def forcePage (p : BM_BufferPool) (d : Disk) (n : Int) : RC × BM_BufferPool × Disk :=
  match (scanFrom p.frames.length p.head).find?
      (fun i => (p.frames.getD i emptyFrame).pageNum == n &&
                (p.frames.getD i emptyFrame).dirtyFlagSignal) with
  | none => (RC_OK, p, d)
  | some i =>
      match writeBlock (p.frames.getD i emptyFrame).pageNum
          (p.frames.getD i emptyFrame).data d with
      | none => (RC_WRITE_FAILED, p, d)
      | some d2 =>
          let fs2 := updateFrame p.frames i (fun f =>
            { f with dirtyFlagSignal := false })
          (RC_OK,
           { p with frames := fs2, getNumWriteIo := p.getNumWriteIo + 1 },
           d2)

/-- The do-while loop of forceFlushPool over a precomputed visiting
order: write back every visited frame that is dirty and has fix count 0,
clearing its dirty bit and counting the write; stop with write-failed on
the first failing write. -/
def flushFrames : List Nat → BM_BufferPool → Disk → RC × BM_BufferPool × Disk
  | [], p, d => (RC_OK, p, d)
  | i :: rest, p, d =>
      let f := p.frames.getD i emptyFrame
      if f.dirtyFlagSignal && f.fixCount == 0 then
        match writeBlock f.pageNum f.data d with
        | none => (RC_WRITE_FAILED, p, d)
        | some d2 =>
            flushFrames rest
              { p with
                frames := updateFrame p.frames i (fun g =>
                  { g with dirtyFlagSignal := false }),
                getNumWriteIo := p.getNumWriteIo + 1 }
              d2
      else flushFrames rest p d

/-- forceFlushPool of buffer_mgr.c: walk the circular list once from head
and write back the dirty unpinned frames. -/
def forceFlushPool (p : BM_BufferPool) (d : Disk) : RC × BM_BufferPool × Disk :=
  flushFrames (scanFrom p.frames.length p.head) p d

/-- shutdownBufferPool of buffer_mgr.c: nothing to do on an empty pool;
otherwise force-flush (propagating a failure with the pool kept alive)
and release everything.  `none` in the second component models the freed
pool; no pin-count check is performed. -/
def shutdownBufferPool (p : BM_BufferPool) (d : Disk) :
    RC × Option BM_BufferPool × Disk :=
  if p.frames.isEmpty then (RC_OK, some p, d)
  else
    let r := forceFlushPool p d
    if r.1 = RC_OK then (RC_OK, none, r.2.2) else (r.1, some r.2.1, r.2.2)

/-- initBufferPool of buffer_mgr.c: numPages frames with default values,
head = tail = frame 0, all counters zero. -/
def initBufferPool (numPages : Nat) : BM_BufferPool :=
  { frames := List.replicate numPages emptyFrame, head := 0, tail := 0,
    occupiedFrameCount := 0, getNumReadIo := 0, getNumWriteIo := 0 }

/-- getFrameContents of buffer_mgr.c: page numbers in creation order
(the walk starts at `start`, which is frame 0). -/
def getFrameContents (p : BM_BufferPool) : List Int :=
  p.frames.map (fun f => f.pageNum)

/-- getDirtyFlags of buffer_mgr.c. -/
def getDirtyFlags (p : BM_BufferPool) : List Bool :=
  p.frames.map (fun f => f.dirtyFlagSignal)

/-- getFixCounts of buffer_mgr.c. -/
def getFixCounts (p : BM_BufferPool) : List Int :=
  p.frames.map (fun f => f.fixCount)

/-- The public operations a client can interleave on one pool. -/
inductive PoolOp where
  | pin (n : Int)
  | unpin (n : Int)
  | mark (n : Int)
  | force (n : Int)
  | flushAll
deriving DecidableEq, Repr

/-- Run one public operation, keeping the pool and disk state. -/
def applyOp (s : ReplacementStrategy) (st : BM_BufferPool × Disk) :
    PoolOp → BM_BufferPool × Disk
  | PoolOp.pin n =>
      let r := pinPage s st.1 st.2 n
      (r.2.1, r.2.2.1)
  | PoolOp.unpin n => ((unpinPage st.1 n).2, st.2)
  | PoolOp.mark n => ((markDirty st.1 n).2, st.2)
  | PoolOp.force n =>
      let r := forcePage st.1 st.2 n
      (r.2.1, r.2.2)
  | PoolOp.flushAll =>
      let r := forceFlushPool st.1 st.2
      (r.2.1, r.2.2)

/-- Run a sequence of public operations from a given state. -/
def runOps (s : ReplacementStrategy) (st : BM_BufferPool × Disk)
    (ops : List PoolOp) : BM_BufferPool × Disk :=
  ops.foldl (applyOp s) st

/-! Basic lemmas about the list-level helpers. -/

theorem getD_set_self {α : Type} (l : List α) (i : Nat) (a e : α)
    (h : i < l.length) : (l.set i a).getD i e = a := by
  rw [List.getD_eq_getElem?_getD, List.getElem?_set_self h]
  rfl

theorem getD_set_ne {α : Type} (l : List α) (i j : Nat) (a e : α)
    (h : j ≠ i) : (l.set i a).getD j e = l.getD j e := by
  rw [List.getD_eq_getElem?_getD, List.getElem?_set_ne (fun hh => h hh.symm),
    List.getD_eq_getElem?_getD]

theorem length_updateFrame (fs : List PageFrame) (i : Nat)
    (g : PageFrame → PageFrame) : (updateFrame fs i g).length = fs.length := by
  simp [updateFrame]

theorem getD_updateFrame_self (fs : List PageFrame) (i : Nat)
    (g : PageFrame → PageFrame) (h : i < fs.length) :
    (updateFrame fs i g).getD i emptyFrame = g (fs.getD i emptyFrame) := by
  unfold updateFrame
  exact getD_set_self _ _ _ _ h

theorem getD_updateFrame_ne (fs : List PageFrame) (i j : Nat)
    (g : PageFrame → PageFrame) (h : j ≠ i) :
    (updateFrame fs i g).getD j emptyFrame = fs.getD j emptyFrame := by
  unfold updateFrame
  exact getD_set_ne _ _ _ _ _ h

theorem getD_updateFrame_or (fs : List PageFrame) (i j : Nat)
    (g : PageFrame → PageFrame) :
    (updateFrame fs j g).getD i emptyFrame = fs.getD i emptyFrame ∨
    ((updateFrame fs j g).getD i emptyFrame = g (fs.getD j emptyFrame) ∧ i = j) := by
  by_cases hij : i = j
  · subst hij
    by_cases hl : i < fs.length
    · exact Or.inr ⟨getD_updateFrame_self fs i g hl, rfl⟩
    · left
      simp [updateFrame, List.set_eq_of_length_le (Nat.le_of_not_lt hl)]
  · exact Or.inl (getD_updateFrame_ne fs j i g hij)

theorem mem_scanFrom_lt {n s i : Nat} (h : i ∈ scanFrom n s) : i < n := by
  rcases List.mem_map.mp h with ⟨k, hk, rfl⟩
  exact Nat.mod_lt _ (Nat.lt_of_le_of_lt (Nat.zero_le k) (List.mem_range.mp hk))

theorem findFrom_some_lt {p : BM_BufferPool} {n : Int} {j : Nat}
    (h : findFrom p n = some j) : j < p.frames.length :=
  mem_scanFrom_lt (List.mem_of_find?_eq_some h)

theorem findFrom_some_page {p : BM_BufferPool} {n : Int} {j : Nat}
    (h : findFrom p n = some j) :
    (p.frames.getD j emptyFrame).pageNum = n := by
  have := List.find?_some h
  simpa using this

/-! Concrete states used to exercise the code on small inputs.  The page
file initially holds five pages whose images are 10, ..., 14, so the image
of page p is 10 + p and overwrites are visible. -/

/-- A five-page page file with pairwise distinct page images. -/
def disk0 : Disk := ⟨[10, 11, 12, 13, 14]⟩

/-- CLOCK pool of 2 frames after pin(1), unpin(1), pin(2) (kept pinned),
pin(3), unpin(3): frame 0 holds page 3 (reference bit set, unpinned) and
frame 1 holds page 2 with fix count 1. -/
def clockPinnedState : BM_BufferPool :=
  (runOps RS_CLOCK (initBufferPool 2, disk0)
    [PoolOp.pin 1, PoolOp.unpin 1, PoolOp.pin 2, PoolOp.pin 3,
     PoolOp.unpin 3]).1

/-- FIFO pool of 1 frame holding page 1 with fix count 1. -/
def fifoOnePinned : BM_BufferPool :=
  (runOps RS_FIFO (initBufferPool 1, disk0) [PoolOp.pin 1]).1

/-- FIFO pool of 1 frame holding page 1 with fix count 0. -/
def fifoOneFree : BM_BufferPool :=
  (runOps RS_FIFO (initBufferPool 1, disk0) [PoolOp.pin 1, PoolOp.unpin 1]).1

/-- LRU pool of 3 frames after pin/unpin of 1, then 2, then a second
pin/unpin of 1: frames hold pages 1 and 2, frame 2 is still empty, and the
hit on page 1 has moved head back to frame 0. -/
def lruWarmState : BM_BufferPool :=
  (runOps RS_LRU (initBufferPool 3, disk0)
    [PoolOp.pin 1, PoolOp.unpin 1, PoolOp.pin 2, PoolOp.unpin 2,
     PoolOp.pin 1, PoolOp.unpin 1]).1

/-- CLOCK pool of 3 frames after pin+unpin of pages 1, 2, 3: every frame
occupied, every reference bit set, every fix count 0. -/
def clockThreeState : BM_BufferPool :=
  (runOps RS_CLOCK (initBufferPool 3, disk0)
    [PoolOp.pin 1, PoolOp.unpin 1, PoolOp.pin 2, PoolOp.unpin 2,
     PoolOp.pin 3, PoolOp.unpin 3]).1

/-- Claim C1 (code bug in pinPageCLOCK): the CLOCK victim sweep does not
re-check fix counts, so after pin(1), unpin(1), pin(2) kept pinned,
pin(3), unpin(3), the call pin(4) rebinds frame 1 - which holds page 2
with fix count 1 - to page 4 and overwrites its data buffer with page 4's
image, returning RC_OK. -/
theorem clock_rebinds_pinned_frame :
    frameAt clockPinnedState 1 =
      { pageNum := 2, dirtyFlagSignal := false, fixCount := 1,
        referenceBit := false, data := 12 } ∧
    (pinPage RS_CLOCK clockPinnedState disk0 4).1 = RC_OK ∧
    frameAt (pinPage RS_CLOCK clockPinnedState disk0 4).2.1 1 =
      { pageNum := 4, dirtyFlagSignal := false, fixCount := 2,
        referenceBit := true, data := 14 } := by
  decide

/-- Claim C2 (code bug in pinPageFIFO): with every frame pinned, the FIFO
victim loop exits without a victim and the code falls through: pinning a
non-resident page returns RC_OK (never RC_NO_FREE_FRAME), increments
numReadIO, and overwrites the pinned head frame's data buffer with the
new page's image while the frame keeps its old page number. -/
theorem fifo_all_pinned_pin_overwrites :
    frameAt fifoOnePinned 0 =
      { pageNum := 1, dirtyFlagSignal := false, fixCount := 1,
        referenceBit := false, data := 11 } ∧
    findFrom fifoOnePinned 2 = none ∧
    (pinPageFIFO fifoOnePinned disk0 2).1 = RC_OK ∧
    (pinPage RS_FIFO fifoOnePinned disk0 2).1 = RC_OK ∧
    (pinPageFIFO fifoOnePinned disk0 2).2.1.getNumReadIo = 2 ∧
    fifoOnePinned.getNumReadIo = 1 ∧
    frameAt (pinPageFIFO fifoOnePinned disk0 2).2.1 0 =
      { pageNum := 1, dirtyFlagSignal := false, fixCount := 1,
        referenceBit := false, data := 12 } := by
  decide

/-- Claim C3 counterexample: a pin of page -2 on a full one-frame FIFO
pool reaches the read step and the read fails, but the chosen frame is
not left empty: it stays rebound to page -2 with its fix count raised,
and the pool scan finds page -2 afterwards. -/
theorem fifo_read_fail_leaves_binding :
    (pinPageFIFO fifoOneFree disk0 (-2)).1 = RC_READ_NON_EXISTING_PAGE ∧
    (frameAt (pinPageFIFO fifoOneFree disk0 (-2)).2.1 0).pageNum = -2 ∧
    (frameAt (pinPageFIFO fifoOneFree disk0 (-2)).2.1 0).pageNum ≠ NO_PAGE ∧
    findFrom (pinPageFIFO fifoOneFree disk0 (-2)).2.1 (-2) = some 0 ∧
    (frameAt (pinPageFIFO fifoOneFree disk0 (-2)).2.1 0).fixCount = 1 ∧
    (pinPageFIFO fifoOneFree disk0 (-2)).2.1.getNumReadIo =
      fifoOneFree.getNumReadIo := by
  decide

/-- Claim C4 (code bug in unpinPage): unpinning a page that no frame
holds returns RC_OK with the pool unchanged instead of failing with
page-not-in-pool, and unpinning a page whose frame already has fix count
0 returns RC_OK and drives the fix count to -1 instead of failing with
unpin-underflow. -/
theorem unpin_missing_and_underflow :
    (frameAt fifoOneFree 0).pageNum = 1 ∧
    (frameAt fifoOneFree 0).fixCount = 0 ∧
    unpinPage fifoOneFree 7 = (RC_OK, fifoOneFree) ∧
    (unpinPage fifoOneFree 1).1 = RC_OK ∧
    (frameAt (unpinPage fifoOneFree 1).2 0).fixCount = -1 := by
  decide

/-- Claim C5 counterexample: shutting down a pool whose only frame is
pinned (fix count 1) returns RC_OK and releases the pool instead of
failing with pool-in-use. -/
theorem shutdown_releases_pinned_pool :
    (frameAt fifoOnePinned 0).fixCount = 1 ∧
    shutdownBufferPool fifoOnePinned disk0 = (RC_OK, none, disk0) := by
  decide

/-- The flush loop produces only RC_OK or RC_WRITE_FAILED. -/
theorem flushFrames_rc (l : List Nat) (p : BM_BufferPool) (d : Disk) :
    (flushFrames l p d).1 = RC_OK ∨ (flushFrames l p d).1 = RC_WRITE_FAILED := by
  induction l generalizing p d with
  | nil => exact Or.inl rfl
  | cons i rest ih =>
      unfold flushFrames
      by_cases hc : ((p.frames.getD i emptyFrame).dirtyFlagSignal &&
          (p.frames.getD i emptyFrame).fixCount == 0) = true
      · rw [if_pos hc]
        cases hw : writeBlock (p.frames.getD i emptyFrame).pageNum
            (p.frames.getD i emptyFrame).data d with
        | none => exact Or.inr rfl
        | some d2 => exact ih _ _
      · rw [if_neg hc]
        exact ih _ _

/-- Claim C5 (amended): shutdownBufferPool performs no pin-count check:
whenever the force-flush succeeds it releases the pool and returns RC_OK,
pinned frames or not, and it never returns RC_POOL_IN_USE. -/
theorem shutdown_ignores_pins (p : BM_BufferPool) (d : Disk)
    (hne : p.frames ≠ []) :
    ((forceFlushPool p d).1 = RC_OK →
      shutdownBufferPool p d = (RC_OK, none, (forceFlushPool p d).2.2)) ∧
    (shutdownBufferPool p d).1 ≠ RC_POOL_IN_USE := by
  have hemp : p.frames.isEmpty = false := List.isEmpty_eq_false.mpr hne
  unfold shutdownBufferPool
  rw [hemp]
  simp only [Bool.false_eq_true, if_false]
  constructor
  · intro hok
    rw [if_pos hok]
  · by_cases hok : (forceFlushPool p d).1 = RC_OK
    · rw [if_pos hok]
      intro hcon
      exact RC.noConfusion hcon
    · rw [if_neg hok]
      rcases flushFrames_rc (scanFrom p.frames.length p.head) p d with h | h
      · exact absurd h hok
      · intro hcon
        rw [show (forceFlushPool p d).1 = RC_WRITE_FAILED from h] at hcon
        exact RC.noConfusion hcon

/-- Witness for shutdown_ignores_pins at the pinned one-frame pool. -/
theorem shutdown_ignores_pins_witness :
    fifoOnePinned.frames ≠ [] ∧
    (((forceFlushPool fifoOnePinned disk0).1 = RC_OK →
      shutdownBufferPool fifoOnePinned disk0 =
        (RC_OK, none, (forceFlushPool fifoOnePinned disk0).2.2)) ∧
    (shutdownBufferPool fifoOnePinned disk0).1 ≠ RC_POOL_IN_USE) :=
  ⟨by decide, shutdown_ignores_pins fifoOnePinned disk0 (by decide)⟩

/-- Claim C7 counterexample: in the two-frame CLOCK pool where frame 1 is
pinned, the outer loop stops at unpinned frame 0, and the inner sweep
clears frame 0's reference bit and then returns frame 1 - a pinned frame -
as the victim, even though unpinned frame 0 now has reference bit 0.  So
victim selection does not return the first unpinned frame found with
reference_bit = 0. -/
theorem clock_sweep_selects_pinned_frame :
    (scanFrom clockPinnedState.frames.length clockPinnedState.head).find?
      (fun i => (clockPinnedState.frames.getD i emptyFrame).fixCount == 0) =
      some 0 ∧
    (clockSweep (clockPinnedState.frames.length + 1)
      clockPinnedState.frames 0).1 = 1 ∧
    (frameAt clockPinnedState 1).fixCount = 1 ∧
    (frameAt clockPinnedState 0).fixCount = 0 ∧
    ((clockSweep (clockPinnedState.frames.length + 1)
      clockPinnedState.frames 0).2.getD 0 emptyFrame).referenceBit = false := by
  decide

/-- Claim C9 counterexample: under LRU with 3 frames, after pin/unpin of
1, 2 and a second pin/unpin of 1 (a hit, which moves head back to frame
0), the warm-up miss pin(3) binds into frame 0 - an occupied frame
holding page 1 - while empty frame 2 stays empty. -/
theorem lru_warmup_rebinds_occupied_frame :
    lruWarmState.occupiedFrameCount = 2 ∧
    lruWarmState.frames.length = 3 ∧
    (frameAt lruWarmState 0).pageNum = 1 ∧
    (frameAt lruWarmState 2).pageNum = NO_PAGE ∧
    findFrom lruWarmState 3 = none ∧
    (frameAt (pinPage RS_LRU lruWarmState disk0 3).2.1 0).pageNum = 3 ∧
    (frameAt (pinPage RS_LRU lruWarmState disk0 3).2.1 2).pageNum = NO_PAGE := by
  decide

/-- Claim C10: the public pinPage entry point discards the result code of
the strategy routine it dispatches to and returns RC_OK for every
strategy, pool state, disk and page number; the pool, disk and handle it
leaves behind are exactly those of the strategy routine. -/
theorem pinPage_always_ok (s : ReplacementStrategy) (p : BM_BufferPool)
    (d : Disk) (n : Int) :
    (pinPage s p d n).1 = RC_OK ∧
    (pinPage s p d n).2 =
      (match s with
       | RS_FIFO => pinPageFIFO p d n
       | RS_LRU => pinPageLRU p d n
       | RS_CLOCK => pinPageCLOCK p d n).2 := by
  cases s <;> exact ⟨rfl, rfl⟩

/-- Claim C8: when page n is resident (the scan from head finds it in
frame j), pin under any strategy returns RC_OK, hands out (n, frame j's
data), increments frame j's fix count by one, and leaves numReadIO,
numWriteIO, the disk, frame j's dirty bit and data, and every other frame
unchanged. -/
theorem pin_hit_props (s : ReplacementStrategy) (p : BM_BufferPool) (d : Disk)
    (n : Int) (j : Nat) (hres : findFrom p n = some j) :
    (pinPage s p d n).1 = RC_OK ∧
    (pinPage s p d n).2.2.1 = d ∧
    (pinPage s p d n).2.2.2 = some (n, (frameAt p j).data) ∧
    (pinPage s p d n).2.1.getNumReadIo = p.getNumReadIo ∧
    (pinPage s p d n).2.1.getNumWriteIo = p.getNumWriteIo ∧
    (frameAt (pinPage s p d n).2.1 j).fixCount = (frameAt p j).fixCount + 1 ∧
    (frameAt (pinPage s p d n).2.1 j).pageNum = n ∧
    (frameAt (pinPage s p d n).2.1 j).dirtyFlagSignal =
      (frameAt p j).dirtyFlagSignal ∧
    (frameAt (pinPage s p d n).2.1 j).data = (frameAt p j).data ∧
    ∀ i, i ≠ j → frameAt (pinPage s p d n).2.1 i = frameAt p i := by
  have hj : j < p.frames.length := findFrom_some_lt hres
  cases s with
  | RS_FIFO =>
      have hpin : pinPage RS_FIFO p d n =
          (RC_OK,
           { p with frames := updateFrame p.frames j (fun f =>
               { f with pageNum := n, fixCount := f.fixCount + 1 }) },
           d, some (n, (p.frames.getD j emptyFrame).data)) := by
        simp only [pinPage, pinPageFIFO, hres]
      rw [hpin]
      dsimp only [frameAt]
      refine ⟨rfl, rfl, rfl, rfl, rfl, ?_, ?_, ?_, ?_, ?_⟩
      · rw [getD_updateFrame_self _ _ _ hj]
      · rw [getD_updateFrame_self _ _ _ hj]
      · rw [getD_updateFrame_self _ _ _ hj]
      · rw [getD_updateFrame_self _ _ _ hj]
      · intro i hij
        exact getD_updateFrame_ne _ _ _ _ hij
  | RS_LRU =>
      have hpin : pinPage RS_LRU p d n =
          (RC_OK,
           { p with
             frames := updateFrame p.frames j (fun f =>
               { f with pageNum := n, fixCount := f.fixCount + 1 }),
             tail := (p.head + 1) % p.frames.length,
             head := j },
           d, some (n, (p.frames.getD j emptyFrame).data)) := by
        simp only [pinPage, pinPageLRU, hres]
      rw [hpin]
      dsimp only [frameAt]
      refine ⟨rfl, rfl, rfl, rfl, rfl, ?_, ?_, ?_, ?_, ?_⟩
      · rw [getD_updateFrame_self _ _ _ hj]
      · rw [getD_updateFrame_self _ _ _ hj]
      · rw [getD_updateFrame_self _ _ _ hj]
      · rw [getD_updateFrame_self _ _ _ hj]
      · intro i hij
        exact getD_updateFrame_ne _ _ _ _ hij
  | RS_CLOCK =>
      have hpin : pinPage RS_CLOCK p d n =
          (RC_OK,
           { p with frames := updateFrame p.frames j (fun f =>
               { f with referenceBit := true, pageNum := n,
                        fixCount := f.fixCount + 1 }) },
           d, some (n, (p.frames.getD j emptyFrame).data)) := by
        simp only [pinPage, pinPageCLOCK, hres]
      rw [hpin]
      dsimp only [frameAt]
      refine ⟨rfl, rfl, rfl, rfl, rfl, ?_, ?_, ?_, ?_, ?_⟩
      · rw [getD_updateFrame_self _ _ _ hj]
      · rw [getD_updateFrame_self _ _ _ hj]
      · rw [getD_updateFrame_self _ _ _ hj]
      · rw [getD_updateFrame_self _ _ _ hj]
      · intro i hij
        exact getD_updateFrame_ne _ _ _ _ hij

/-- Witness for pin_hit_props: page 1 is resident in frame 0 of the
one-frame pool and an LRU hit raises its fix count from 0 to 1. -/
theorem pin_hit_props_witness :
    findFrom fifoOneFree 1 = some 0 ∧
    (pinPage RS_LRU fifoOneFree disk0 1).1 = RC_OK ∧
    (frameAt (pinPage RS_LRU fifoOneFree disk0 1).2.1 0).fixCount =
      (frameAt fifoOneFree 0).fixCount + 1 ∧
    (pinPage RS_LRU fifoOneFree disk0 1).2.1.getNumReadIo =
      fifoOneFree.getNumReadIo :=
  ⟨by decide, (pin_hit_props RS_LRU fifoOneFree disk0 1 0 (by decide)).1,
   (pin_hit_props RS_LRU fifoOneFree disk0 1 0 (by decide)).2.2.2.2.2.1,
   (pin_hit_props RS_LRU fifoOneFree disk0 1 0 (by decide)).2.2.2.1⟩

/-! Lemmas about the shared pin-path helpers, used for the read-failure
analysis. -/

theorem bindEmptyFrame_pageNum (p : BM_BufferPool) (n : Int) (b : Bool) (i : Nat) :
    (frameAt (bindEmptyFrame p n b) i).pageNum = (frameAt p i).pageNum ∨
    (frameAt (bindEmptyFrame p n b) i).pageNum = n := by
  dsimp only [frameAt, bindEmptyFrame]
  rcases getD_updateFrame_or p.frames i p.head (fun f =>
    { f with pageNum := n, fixCount := f.fixCount + 1,
             referenceBit := if b then true else f.referenceBit }) with h1 | ⟨h2, _⟩
  · rw [h1]
    exact Or.inl rfl
  · rw [h2]
    exact Or.inr rfl

theorem bindEmptyFrame_fixCount (p : BM_BufferPool) (n : Int) (b : Bool) (i : Nat) :
    (frameAt (bindEmptyFrame p n b) i).fixCount = (frameAt p i).fixCount ∨
    (frameAt (bindEmptyFrame p n b) i).fixCount = (frameAt p i).fixCount + 1 := by
  dsimp only [frameAt, bindEmptyFrame]
  rcases getD_updateFrame_or p.frames i p.head (fun f =>
    { f with pageNum := n, fixCount := f.fixCount + 1,
             referenceBit := if b then true else f.referenceBit }) with h1 | ⟨h2, hij⟩
  · rw [h1]
    exact Or.inl rfl
  · rw [h2, hij]
    exact Or.inr rfl

theorem flushVictim_ok_inv {p : BM_BufferPool} {d : Disk} {v : Nat}
    {p1 : BM_BufferPool} {d2 : Disk}
    (h : flushVictim p d v = Except.ok (p1, d2)) :
    p1.frames = p.frames ∧ p1.getNumReadIo = p.getNumReadIo ∧
    p1.occupiedFrameCount = p.occupiedFrameCount ∧ p1.head = p.head ∧
    p1.tail = p.tail := by
  simp only [flushVictim] at h
  by_cases hd : (p.frames.getD v emptyFrame).dirtyFlagSignal
  · rw [if_pos hd] at h
    cases hw : writeBlock (p.frames.getD v emptyFrame).pageNum
        (p.frames.getD v emptyFrame).data
        (ensureCapacity (p.frames.getD v emptyFrame).pageNum d) with
    | none =>
        rw [hw] at h
        exact absurd h (by simp)
    | some d3 =>
        rw [hw] at h
        simp only [Except.ok.injEq, Prod.mk.injEq] at h
        rw [← h.1]
        exact ⟨rfl, rfl, rfl, rfl, rfl⟩
  · rw [if_neg hd] at h
    simp only [Except.ok.injEq, Prod.mk.injEq] at h
    rw [← h.1]
    exact ⟨rfl, rfl, rfl, rfl, rfl⟩

/-- Claim C3 (amended): whenever pinPageFIFO fails with
read-non-existing-page (the only failure of the read step), numReadIO is
unchanged and the page handle is not set, but no cleanup happens: every
frame either keeps its old page number or is already rebound to the
requested one, and every fix count is either unchanged or already
incremented. -/
theorem pinPageFIFO_read_fail_props (p : BM_BufferPool) (d : Disk) (n : Int)
    (hrc : (pinPageFIFO p d n).1 = RC_READ_NON_EXISTING_PAGE) :
    (pinPageFIFO p d n).2.1.getNumReadIo = p.getNumReadIo ∧
    (pinPageFIFO p d n).2.2.2 = none ∧
    (∀ i, (frameAt (pinPageFIFO p d n).2.1 i).pageNum = (frameAt p i).pageNum ∨
          (frameAt (pinPageFIFO p d n).2.1 i).pageNum = n) ∧
    (∀ i, (frameAt (pinPageFIFO p d n).2.1 i).fixCount = (frameAt p i).fixCount ∨
          (frameAt (pinPageFIFO p d n).2.1 i).fixCount =
            (frameAt p i).fixCount + 1) := by
  cases hf : findFrom p n with
  | some j =>
      simp [pinPageFIFO, hf] at hrc
  | none =>
      by_cases ho : p.occupiedFrameCount < p.frames.length
      · cases hrb : readBlock n (ensureCapacity (n + 1) d) with
        | some c =>
            simp [pinPageFIFO, hf, ho, readIntoFrame, hrb] at hrc
        | none =>
            have heq : pinPageFIFO p d n =
                (RC_READ_NON_EXISTING_PAGE, bindEmptyFrame p n false,
                 ensureCapacity (n + 1) d, none) := by
              simp only [pinPageFIFO, hf, if_pos ho, readIntoFrame, hrb]
            rw [heq]
            exact ⟨rfl, rfl, fun i => bindEmptyFrame_pageNum p n false i,
                   fun i => bindEmptyFrame_fixCount p n false i⟩
      · cases hv : (fifoVictimOrder p.frames.length p.tail p.head).find?
            (fun i => (p.frames.getD i emptyFrame).fixCount == 0) with
        | none =>
            cases hrb : readBlock n (ensureCapacity (n + 1) d) with
            | some c =>
                simp only [pinPageFIFO, hf, if_neg ho, hv, readIntoFrame,
                  hrb] at hrc
                exact absurd hrc (by decide)
            | none =>
                have heq : pinPageFIFO p d n =
                    (RC_READ_NON_EXISTING_PAGE, p, ensureCapacity (n + 1) d,
                     none) := by
                  simp only [pinPageFIFO, hf, if_neg ho, hv, readIntoFrame, hrb]
                rw [heq]
                exact ⟨rfl, rfl, fun i => Or.inl rfl, fun i => Or.inl rfl⟩
        | some v =>
            cases hfl : flushVictim p d v with
            | error d1 =>
                simp only [pinPageFIFO, hf, if_neg ho, hv, hfl] at hrc
                exact absurd hrc (by decide)
            | ok pr =>
                obtain ⟨p1, d2⟩ := pr
                obtain ⟨hfr, hio, -, -, -⟩ := flushVictim_ok_inv hfl
                cases hrb : readBlock n (ensureCapacity (n + 1) d2) with
                | some c =>
                    simp only [pinPageFIFO, hf, if_neg ho, hv, hfl,
                      readIntoFrame, hrb] at hrc
                    exact absurd hrc (by decide)
                | none =>
                    have heq : pinPageFIFO p d n =
                        (RC_READ_NON_EXISTING_PAGE,
                         { p1 with
                           frames := updateFrame p1.frames v (fun f =>
                             { f with pageNum := n,
                                      fixCount := f.fixCount + 1 }),
                           tail := (v + 1) % p1.frames.length,
                           head := v },
                         ensureCapacity (n + 1) d2, none) := by
                      simp only [pinPageFIFO, hf, if_neg ho, hv, hfl,
                        readIntoFrame, hrb]
                    rw [heq]
                    refine ⟨hio, rfl, ?_, ?_⟩
                    · intro i
                      dsimp only [frameAt]
                      rw [hfr]
                      rcases getD_updateFrame_or p.frames i v (fun f =>
                          { f with pageNum := n, fixCount := f.fixCount + 1 })
                        with h1 | ⟨h2, _⟩
                      · rw [h1]
                        exact Or.inl rfl
                      · rw [h2]
                        exact Or.inr rfl
                    · intro i
                      dsimp only [frameAt]
                      rw [hfr]
                      rcases getD_updateFrame_or p.frames i v (fun f =>
                          { f with pageNum := n, fixCount := f.fixCount + 1 })
                        with h1 | ⟨h2, hij⟩
                      · rw [h1]
                        exact Or.inl rfl
                      · rw [h2, hij]
                        exact Or.inr rfl

/-- Witness for pinPageFIFO_read_fail_props: the failing pin of page -2
on the full one-frame pool. -/
theorem pinPageFIFO_read_fail_props_witness :
    (pinPageFIFO fifoOneFree disk0 (-2)).1 = RC_READ_NON_EXISTING_PAGE ∧
    (pinPageFIFO fifoOneFree disk0 (-2)).2.1.getNumReadIo =
      fifoOneFree.getNumReadIo ∧
    (pinPageFIFO fifoOneFree disk0 (-2)).2.2.2 = none :=
  ⟨by decide, (pinPageFIFO_read_fail_props fifoOneFree disk0 (-2) (by decide)).1,
   (pinPageFIFO_read_fail_props fifoOneFree disk0 (-2) (by decide)).2.1⟩

/-! Lemmas about the circular scan order and the modelled disk. -/

theorem scanFrom_nodup (n s : Nat) : (scanFrom n s).Nodup := by
  refine List.Nodup.map_on ?_ (List.nodup_range n)
  intro k1 h1 k2 h2 heq
  have hk1 := List.mem_range.mp h1
  have hk2 := List.mem_range.mp h2
  have hmod : k1 % n = k2 % n := Nat.ModEq.add_left_cancel' s heq
  rw [Nat.mod_eq_of_lt hk1, Nat.mod_eq_of_lt hk2] at hmod
  exact hmod

theorem mem_scanFrom {n s i : Nat} (hn : 0 < n) (hi : i < n) :
    i ∈ scanFrom n s := by
  simp only [scanFrom, List.mem_map]
  refine ⟨(n + i - s % n) % n, List.mem_range.mpr (Nat.mod_lt _ hn), ?_⟩
  have h1 : s % n ≤ n + i :=
    Nat.le_trans (Nat.le_of_lt (Nat.mod_lt s hn)) (Nat.le_add_right n i)
  calc (s + (n + i - s % n) % n) % n
      = (s + (n + i - s % n)) % n := Nat.add_mod_mod s (n + i - s % n) n
    _ = (s % n + (n + i - s % n)) % n := (Nat.mod_add_mod s n (n + i - s % n)).symm
    _ = (n + i) % n := by rw [Nat.add_sub_cancel' h1]
    _ = i % n := by rw [Nat.add_comm n i, Nat.add_mod_right]
    _ = i := Nat.mod_eq_of_lt hi

theorem scanFrom_length (n s : Nat) : (scanFrom n s).length = n := by
  simp [scanFrom]

theorem getD_default_of_le {α : Type} (l : List α) (i : Nat) (e : α)
    (h : l.length ≤ i) : l.getD i e = e := by
  rw [List.getD_eq_getElem?_getD, List.getElem?_eq_none h]
  rfl

/-- Whether a writeBlock of this frame's page can succeed on this disk. -/
def canWrite (d : Disk) (f : PageFrame) : Prop :=
  0 ≤ f.pageNum ∧ f.pageNum < (d.pages.length : Int)

instance (d : Disk) (f : PageFrame) : Decidable (canWrite d f) := by
  unfold canWrite
  infer_instance

theorem writeBlock_some_of_canWrite {d : Disk} {f : PageFrame}
    (h : canWrite d f) :
    writeBlock f.pageNum f.data d = some ⟨d.pages.set f.pageNum.toNat f.data⟩ := by
  have h' : 0 ≤ f.pageNum ∧ f.pageNum < (d.pages.length : Int) := h
  unfold writeBlock
  rw [if_pos h']

theorem writeBlock_none_iff {q : Int} {c : Nat} {d : Disk} :
    writeBlock q c d = none ↔ ¬(0 ≤ q ∧ q < (d.pages.length : Int)) := by
  unfold writeBlock
  by_cases h : 0 ≤ q ∧ q < (d.pages.length : Int)
  · rw [if_pos h]
    simp [h]
  · rw [if_neg h]
    simp [h]

theorem writeBlock_length {q : Int} {c : Nat} {d d2 : Disk}
    (h : writeBlock q c d = some d2) : d2.pages.length = d.pages.length := by
  unfold writeBlock at h
  by_cases hc : 0 ≤ q ∧ q < (d.pages.length : Int)
  · rw [if_pos hc] at h
    cases h
    simp
  · rw [if_neg hc] at h
    cases h

theorem writeBlock_read_self {q : Int} {c : Nat} {d d2 : Disk}
    (h : writeBlock q c d = some d2) : readBlock q d2 = some c := by
  unfold writeBlock at h
  by_cases hc : 0 ≤ q ∧ q < (d.pages.length : Int)
  · rw [if_pos hc] at h
    cases h
    unfold readBlock
    rw [if_pos (by simpa using hc)]
    have hq : q.toNat < d.pages.length := (Int.toNat_lt hc.1).mpr hc.2
    rw [getD_set_self _ _ _ _ hq]
  · rw [if_neg hc] at h
    cases h

theorem writeBlock_read_ne {q r : Int} {c : Nat} {d d2 : Disk}
    (h : writeBlock q c d = some d2) (hne : q ≠ r) :
    readBlock r d2 = readBlock r d := by
  unfold writeBlock at h
  by_cases hc : 0 ≤ q ∧ q < (d.pages.length : Int)
  · rw [if_pos hc] at h
    cases h
    unfold readBlock
    simp only [List.length_set]
    by_cases hr : 0 ≤ r ∧ r < (d.pages.length : Int)
    · rw [if_pos hr, if_pos hr]
      have : r.toNat ≠ q.toNat := by
        intro hT
        exact hne (by
          have h1 : (q.toNat : Int) = q := Int.toNat_of_nonneg hc.1
          have h2 : (r.toNat : Int) = r := Int.toNat_of_nonneg hr.1
          rw [← h1, ← h2, hT])
      rw [getD_set_ne _ _ _ _ _ this]
    · rw [if_neg hr, if_neg hr]
  · rw [if_neg hc] at h
    cases h

/-- The condition the flush loop tests on each visited frame. -/
def flushCond (f : PageFrame) : Bool := f.dirtyFlagSignal && f.fixCount == 0

/-- A frame after a successful write-back in the flush loop. -/
def clearDirty (f : PageFrame) : PageFrame := { f with dirtyFlagSignal := false }

theorem emptyFrame_flushCond : flushCond emptyFrame = false := by decide

/-- What the flush loop does to the frames and the untouched pool fields:
every frame is either untouched or - when it is among the visited ones and
satisfies the flush condition - has exactly its dirty bit cleared. -/
theorem flushFrames_frames (l : List Nat) (p : BM_BufferPool) (d : Disk) :
    (∀ i, frameAt (flushFrames l p d).2.1 i = frameAt p i ∨
      (i ∈ l ∧ flushCond (frameAt p i) = true ∧
       frameAt (flushFrames l p d).2.1 i = clearDirty (frameAt p i))) ∧
    (flushFrames l p d).2.1.head = p.head ∧
    (flushFrames l p d).2.1.tail = p.tail ∧
    (flushFrames l p d).2.1.occupiedFrameCount = p.occupiedFrameCount ∧
    (flushFrames l p d).2.1.getNumReadIo = p.getNumReadIo := by
  induction l generalizing p d with
  | nil => exact ⟨fun i => Or.inl rfl, rfl, rfl, rfl, rfl⟩
  | cons i rest ih =>
      simp only [flushFrames]
      by_cases hc : ((p.frames.getD i emptyFrame).dirtyFlagSignal &&
          (p.frames.getD i emptyFrame).fixCount == 0) = true
      · rw [if_pos hc]
        cases hw : writeBlock (p.frames.getD i emptyFrame).pageNum
            (p.frames.getD i emptyFrame).data d with
        | none => exact ⟨fun j => Or.inl rfl, rfl, rfl, rfl, rfl⟩
        | some d2 =>
            obtain ⟨ihf, ihh, iht, iho, ihr⟩ := ih
              { p with
                frames := updateFrame p.frames i (fun g =>
                  { g with dirtyFlagSignal := false }),
                getNumWriteIo := p.getNumWriteIo + 1 } d2
            refine ⟨?_, ihh, iht, iho, ihr⟩
            intro j
            have hil : i < p.frames.length := by
              by_contra hlen
              rw [getD_default_of_le _ _ _ (Nat.le_of_not_lt hlen)] at hc
              exact absurd hc (by decide)
            rcases ihf j with h1 | ⟨hmem, hcond, hval⟩
            · by_cases hji : j = i
              · subst hji
                right
                refine ⟨List.mem_cons_self j rest, hc, ?_⟩
                rw [h1]
                dsimp only [frameAt]
                rw [getD_updateFrame_self _ _ _ hil]
                rfl
              · left
                rw [h1]
                dsimp only [frameAt]
                exact getD_updateFrame_ne _ _ _ _ hji
            · by_cases hji : j = i
              · subst hji
                exfalso
                have hd : (frameAt
                    { p with
                      frames := updateFrame p.frames j (fun g =>
                        { g with dirtyFlagSignal := false }),
                      getNumWriteIo := p.getNumWriteIo + 1 } j).dirtyFlagSignal
                    = false := by
                  dsimp only [frameAt]
                  rw [getD_updateFrame_self _ _ _ hil]
                rw [flushCond, hd] at hcond
                simp at hcond
              · right
                have hfr : frameAt
                    { p with
                      frames := updateFrame p.frames i (fun g =>
                        { g with dirtyFlagSignal := false }),
                      getNumWriteIo := p.getNumWriteIo + 1 } j = frameAt p j := by
                  dsimp only [frameAt]
                  exact getD_updateFrame_ne _ _ _ _ hji
                refine ⟨List.mem_cons_of_mem _ hmem, ?_, ?_⟩
                · rw [← hfr]
                  exact hcond
                · rw [hval, hfr]
      · rw [if_neg hc]
        obtain ⟨ihf, ihh, iht, iho, ihr⟩ := ih p d
        refine ⟨?_, ihh, iht, iho, ihr⟩
        intro j
        rcases ihf j with h1 | ⟨hmem, hcond, hval⟩
        · exact Or.inl h1
        · exact Or.inr ⟨List.mem_cons_of_mem _ hmem, hcond, hval⟩

/-- The flush loop counts exactly one write per frame whose dirty bit it
clears. -/
theorem flushFrames_writeIo (l : List Nat) (p : BM_BufferPool) (d : Disk)
    (hnd : l.Nodup) :
    (flushFrames l p d).2.1.getNumWriteIo = p.getNumWriteIo +
      (l.filter (fun i => (frameAt p i).dirtyFlagSignal &&
        !(frameAt (flushFrames l p d).2.1 i).dirtyFlagSignal)).length := by
  induction l generalizing p d with
  | nil => rfl
  | cons i rest ih =>
      obtain ⟨hni, hnd'⟩ := List.nodup_cons.mp hnd
      simp only [flushFrames]
      by_cases hc : ((p.frames.getD i emptyFrame).dirtyFlagSignal &&
          (p.frames.getD i emptyFrame).fixCount == 0) = true
      · rw [if_pos hc]
        cases hw : writeBlock (p.frames.getD i emptyFrame).pageNum
            (p.frames.getD i emptyFrame).data d with
        | none => simp
        | some d2 =>
            dsimp only
            have hil : i < p.frames.length := by
              by_contra hlen
              rw [getD_default_of_le _ _ _ (Nat.le_of_not_lt hlen)] at hc
              exact absurd hc (by decide)
            have ihx := ih
              { p with
                frames := updateFrame p.frames i (fun g =>
                  { g with dirtyFlagSignal := false }),
                getNumWriteIo := p.getNumWriteIo + 1 } d2 hnd'
            have hdi : (frameAt (flushFrames rest
                { p with
                  frames := updateFrame p.frames i (fun g =>
                    { g with dirtyFlagSignal := false }),
                  getNumWriteIo := p.getNumWriteIo + 1 } d2).2.1
                i).dirtyFlagSignal = false := by
              rcases (flushFrames_frames rest
                { p with
                  frames := updateFrame p.frames i (fun g =>
                    { g with dirtyFlagSignal := false }),
                  getNumWriteIo := p.getNumWriteIo + 1 } d2).1 i with
                h1 | ⟨hmem, _, _⟩
              · rw [h1]
                dsimp only [frameAt]
                rw [getD_updateFrame_self _ _ _ hil]
              · exact absurd hmem hni
            have hdp : (frameAt p i).dirtyFlagSignal = true :=
              (Bool.and_eq_true _ _ |>.mp hc).1
            have hPi : ((frameAt p i).dirtyFlagSignal &&
                !(frameAt (flushFrames rest
                  { p with
                    frames := updateFrame p.frames i (fun g =>
                      { g with dirtyFlagSignal := false }),
                    getNumWriteIo := p.getNumWriteIo + 1 } d2).2.1
                  i).dirtyFlagSignal) = true := by
              rw [hdp, hdi]
              rfl
            rw [List.filter_cons, if_pos hPi, ihx]
            have hfeq : rest.filter (fun x => (frameAt
                  { p with
                    frames := updateFrame p.frames i (fun g =>
                      { g with dirtyFlagSignal := false }),
                    getNumWriteIo := p.getNumWriteIo + 1 } x).dirtyFlagSignal &&
                !(frameAt (flushFrames rest
                  { p with
                    frames := updateFrame p.frames i (fun g =>
                      { g with dirtyFlagSignal := false }),
                    getNumWriteIo := p.getNumWriteIo + 1 } d2).2.1
                  x).dirtyFlagSignal) =
                rest.filter (fun x => (frameAt p x).dirtyFlagSignal &&
                !(frameAt (flushFrames rest
                  { p with
                    frames := updateFrame p.frames i (fun g =>
                      { g with dirtyFlagSignal := false }),
                    getNumWriteIo := p.getNumWriteIo + 1 } d2).2.1
                  x).dirtyFlagSignal) := by
              refine List.filter_congr ?_
              intro x hx
              have hxi : x ≠ i := fun hT => hni (hT ▸ hx)
              have hfr : frameAt
                  { p with
                    frames := updateFrame p.frames i (fun g =>
                      { g with dirtyFlagSignal := false }),
                    getNumWriteIo := p.getNumWriteIo + 1 } x = frameAt p x := by
                dsimp only [frameAt]
                exact getD_updateFrame_ne _ _ _ _ hxi
              rw [hfr]
            rw [hfeq, List.length_cons]
            dsimp only
            omega
      · rw [if_neg hc]
        have hcf : ((p.frames.getD i emptyFrame).dirtyFlagSignal &&
            (p.frames.getD i emptyFrame).fixCount == 0) = false :=
          Bool.not_eq_true _ |>.mp hc
        have hPi : ((frameAt p i).dirtyFlagSignal &&
            !(frameAt (flushFrames rest p d).2.1 i).dirtyFlagSignal) = false := by
          by_cases hdp : (frameAt p i).dirtyFlagSignal = true
          · have hres : frameAt (flushFrames rest p d).2.1 i = frameAt p i := by
              rcases (flushFrames_frames rest p d).1 i with h1 | ⟨_, hcond, _⟩
              · exact h1
              · exact absurd hcond (by
                  rw [flushCond]
                  exact fun hT => absurd hT (by
                    rw [show ((frameAt p i).dirtyFlagSignal &&
                      (frameAt p i).fixCount == 0) = false from hcf]
                    decide))
            rw [hres, hdp]
            simp
          · rw [Bool.not_eq_true _ |>.mp hdp]
            rfl
        rw [List.filter_cons, if_neg (by rw [hPi]; exact Bool.false_ne_true)]
        exact ih p d hnd'

/-- The flush loop leaves every disk page other than the written-back
pages unchanged. -/
theorem flushFrames_disk_other (l : List Nat) (p : BM_BufferPool) (d : Disk)
    (q : Int)
    (hq : ∀ i ∈ l, flushCond (frameAt p i) = true → (frameAt p i).pageNum ≠ q) :
    readBlock q (flushFrames l p d).2.2 = readBlock q d := by
  induction l generalizing p d with
  | nil => rfl
  | cons i rest ih =>
      simp only [flushFrames]
      by_cases hc : ((p.frames.getD i emptyFrame).dirtyFlagSignal &&
          (p.frames.getD i emptyFrame).fixCount == 0) = true
      · rw [if_pos hc]
        cases hw : writeBlock (p.frames.getD i emptyFrame).pageNum
            (p.frames.getD i emptyFrame).data d with
        | none => rfl
        | some d2 =>
            dsimp only
            have hil : i < p.frames.length := by
              by_contra hlen
              rw [getD_default_of_le _ _ _ (Nat.le_of_not_lt hlen)] at hc
              exact absurd hc (by decide)
            have hpq : (frameAt p i).pageNum ≠ q :=
              hq i (List.mem_cons_self i rest) hc
            have hstep : readBlock q d2 = readBlock q d :=
              writeBlock_read_ne hw hpq
            rw [← hstep]
            refine ih _ d2 ?_
            intro x hx hcond
            by_cases hxi : x = i
            · subst hxi
              exfalso
              have hd : (frameAt
                  { p with
                    frames := updateFrame p.frames x (fun g =>
                      { g with dirtyFlagSignal := false }),
                    getNumWriteIo := p.getNumWriteIo + 1 } x).dirtyFlagSignal
                  = false := by
                dsimp only [frameAt]
                rw [getD_updateFrame_self _ _ _ hil]
              rw [flushCond, hd] at hcond
              simp at hcond
            · have hfr : frameAt
                  { p with
                    frames := updateFrame p.frames i (fun g =>
                      { g with dirtyFlagSignal := false }),
                    getNumWriteIo := p.getNumWriteIo + 1 } x = frameAt p x := by
                dsimp only [frameAt]
                exact getD_updateFrame_ne _ _ _ _ hxi
              rw [hfr] at hcond ⊢
              exact hq x (List.mem_cons_of_mem _ hx) hcond
      · rw [if_neg hc]
        refine ih p d ?_
        intro x hx hcond
        exact hq x (List.mem_cons_of_mem _ hx) hcond

theorem canWrite_length_eq {d d' : Disk} (h : d'.pages.length = d.pages.length)
    (f : PageFrame) : canWrite d' f ↔ canWrite d f := by
  unfold canWrite
  rw [h]

/-- When every dirty unpinned visited frame is writable and no two of
them share a page number, the flush loop succeeds, clears their dirty
bits and leaves their images on disk. -/
theorem flushFrames_ok (l : List Nat) (p : BM_BufferPool) (d : Disk)
    (hnd : l.Nodup)
    (hw : ∀ i ∈ l, flushCond (frameAt p i) = true → canWrite d (frameAt p i))
    (hdisj : ∀ i ∈ l, ∀ j ∈ l, i ≠ j → flushCond (frameAt p i) = true →
      flushCond (frameAt p j) = true →
      (frameAt p i).pageNum ≠ (frameAt p j).pageNum) :
    (flushFrames l p d).1 = RC_OK ∧
    ∀ i ∈ l, flushCond (frameAt p i) = true →
      (frameAt (flushFrames l p d).2.1 i).dirtyFlagSignal = false ∧
      readBlock (frameAt p i).pageNum (flushFrames l p d).2.2 =
        some (frameAt p i).data := by
  induction l generalizing p d with
  | nil => exact ⟨rfl, fun i hi => absurd hi (List.not_mem_nil i)⟩
  | cons i rest ih =>
      obtain ⟨hni, hnd'⟩ := List.nodup_cons.mp hnd
      simp only [flushFrames]
      by_cases hc : ((p.frames.getD i emptyFrame).dirtyFlagSignal &&
          (p.frames.getD i emptyFrame).fixCount == 0) = true
      · rw [if_pos hc]
        have hil : i < p.frames.length := by
          by_contra hlen
          rw [getD_default_of_le _ _ _ (Nat.le_of_not_lt hlen)] at hc
          exact absurd hc (by decide)
        have hcw : canWrite d (p.frames.getD i emptyFrame) :=
          hw i (List.mem_cons_self i rest) hc
        have hwb := writeBlock_some_of_canWrite (d := d)
          (f := p.frames.getD i emptyFrame) hcw
        rw [hwb]
        dsimp only
        have hlen2 : (Disk.mk (d.pages.set
            (p.frames.getD i emptyFrame).pageNum.toNat
            (p.frames.getD i emptyFrame).data)).pages.length =
            d.pages.length := by
          dsimp only
          exact List.length_set d.pages _ _
        have hfr : ∀ x, x ≠ i → frameAt
            { p with
              frames := updateFrame p.frames i (fun g =>
                { g with dirtyFlagSignal := false }),
              getNumWriteIo := p.getNumWriteIo + 1 } x = frameAt p x := by
          intro x hxi
          dsimp only [frameAt]
          exact getD_updateFrame_ne _ _ _ _ hxi
        have hw' : ∀ x ∈ rest, flushCond (frameAt
            { p with
              frames := updateFrame p.frames i (fun g =>
                { g with dirtyFlagSignal := false }),
              getNumWriteIo := p.getNumWriteIo + 1 } x) = true →
            canWrite (Disk.mk (d.pages.set
              (p.frames.getD i emptyFrame).pageNum.toNat
              (p.frames.getD i emptyFrame).data)) (frameAt
            { p with
              frames := updateFrame p.frames i (fun g =>
                { g with dirtyFlagSignal := false }),
              getNumWriteIo := p.getNumWriteIo + 1 } x) := by
          intro x hx hcx
          have hxi : x ≠ i := fun hT => hni (hT ▸ hx)
          rw [hfr x hxi] at hcx ⊢
          exact (canWrite_length_eq hlen2 _).mpr
            (hw x (List.mem_cons_of_mem _ hx) hcx)
        have hdisj' : ∀ x ∈ rest, ∀ y ∈ rest, x ≠ y →
            flushCond (frameAt
              { p with
                frames := updateFrame p.frames i (fun g =>
                  { g with dirtyFlagSignal := false }),
                getNumWriteIo := p.getNumWriteIo + 1 } x) = true →
            flushCond (frameAt
              { p with
                frames := updateFrame p.frames i (fun g =>
                  { g with dirtyFlagSignal := false }),
                getNumWriteIo := p.getNumWriteIo + 1 } y) = true →
            (frameAt
              { p with
                frames := updateFrame p.frames i (fun g =>
                  { g with dirtyFlagSignal := false }),
                getNumWriteIo := p.getNumWriteIo + 1 } x).pageNum ≠
            (frameAt
              { p with
                frames := updateFrame p.frames i (fun g =>
                  { g with dirtyFlagSignal := false }),
                getNumWriteIo := p.getNumWriteIo + 1 } y).pageNum := by
          intro x hx y hy hxy hcx hcy
          have hxi : x ≠ i := fun hT => hni (hT ▸ hx)
          have hyi : y ≠ i := fun hT => hni (hT ▸ hy)
          rw [hfr x hxi] at hcx ⊢
          rw [hfr y hyi] at hcy ⊢
          exact hdisj x (List.mem_cons_of_mem _ hx) y
            (List.mem_cons_of_mem _ hy) hxy hcx hcy
        obtain ⟨hrc, hconc⟩ := ih _ _ hnd' hw' hdisj'
        refine ⟨hrc, ?_⟩
        intro x hx hcx
        rcases List.mem_cons.mp hx with hxi | hxr
        · subst hxi
          constructor
          · rcases (flushFrames_frames rest
              { p with
                frames := updateFrame p.frames x (fun g =>
                  { g with dirtyFlagSignal := false }),
                getNumWriteIo := p.getNumWriteIo + 1 } _).1 x with
              h1 | ⟨hmem, _, _⟩
            · rw [h1]
              dsimp only [frameAt]
              rw [getD_updateFrame_self _ _ _ hil]
            · exact absurd hmem hni
          · have hrd : readBlock (frameAt p x).pageNum (Disk.mk (d.pages.set
                (p.frames.getD x emptyFrame).pageNum.toNat
                (p.frames.getD x emptyFrame).data)) =
                some (frameAt p x).data :=
              writeBlock_read_self hwb
            rw [← hrd]
            refine flushFrames_disk_other rest _ _ _ ?_
            intro y hy hcy
            have hyi : y ≠ x := fun hT => hni (hT ▸ hy)
            rw [hfr y hyi] at hcy ⊢
            exact hdisj y (List.mem_cons_of_mem _ hy) x
              (List.mem_cons_self x rest) hyi hcy hc
        · have hxi : x ≠ i := fun hT => hni (hT ▸ hxr)
          have hcx' : flushCond (frameAt
              { p with
                frames := updateFrame p.frames i (fun g =>
                  { g with dirtyFlagSignal := false }),
                getNumWriteIo := p.getNumWriteIo + 1 } x) = true := by
            rw [hfr x hxi]
            exact hcx
          have := hconc x hxr hcx'
          rw [hfr x hxi] at this
          exact this
      · rw [if_neg hc]
        have hw' : ∀ x ∈ rest, flushCond (frameAt p x) = true →
            canWrite d (frameAt p x) :=
          fun x hx => hw x (List.mem_cons_of_mem _ hx)
        have hdisj' : ∀ x ∈ rest, ∀ y ∈ rest, x ≠ y →
            flushCond (frameAt p x) = true → flushCond (frameAt p y) = true →
            (frameAt p x).pageNum ≠ (frameAt p y).pageNum :=
          fun x hx y hy => hdisj x (List.mem_cons_of_mem _ hx) y
            (List.mem_cons_of_mem _ hy)
        obtain ⟨hrc, hconc⟩ := ih p d hnd' hw' hdisj'
        refine ⟨hrc, ?_⟩
        intro x hx hcx
        rcases List.mem_cons.mp hx with hxi | hxr
        · subst hxi
          exact absurd hcx hc
        · exact hconc x hxr hcx

/-- When the flush loop fails it fails with write-failed, and some
visited dirty unpinned frame is left untouched - still dirty - because
its write fails on the final disk. -/
theorem flushFrames_fail (l : List Nat) (p : BM_BufferPool) (d : Disk)
    (hnd : l.Nodup) (h : (flushFrames l p d).1 ≠ RC_OK) :
    (flushFrames l p d).1 = RC_WRITE_FAILED ∧
    ∃ j, j ∈ l ∧ flushCond (frameAt p j) = true ∧
      frameAt (flushFrames l p d).2.1 j = frameAt p j ∧
      writeBlock (frameAt p j).pageNum (frameAt p j).data
        (flushFrames l p d).2.2 = none := by
  induction l generalizing p d with
  | nil => exact absurd rfl h
  | cons i rest ih =>
      obtain ⟨hni, hnd'⟩ := List.nodup_cons.mp hnd
      simp only [flushFrames] at h ⊢
      by_cases hc : ((p.frames.getD i emptyFrame).dirtyFlagSignal &&
          (p.frames.getD i emptyFrame).fixCount == 0) = true
      · rw [if_pos hc] at h ⊢
        cases hw : writeBlock (p.frames.getD i emptyFrame).pageNum
            (p.frames.getD i emptyFrame).data d with
        | none =>
            dsimp only
            exact ⟨rfl, i, List.mem_cons_self i rest, hc, rfl, hw⟩
        | some d2 =>
            dsimp only
            rw [hw] at h
            dsimp only at h
            obtain ⟨hrc, j, hmem, hcond, hval, hwb⟩ := ih
              { p with
                frames := updateFrame p.frames i (fun g =>
                  { g with dirtyFlagSignal := false }),
                getNumWriteIo := p.getNumWriteIo + 1 } d2 hnd' h
            have hji : j ≠ i := fun hT => hni (hT ▸ hmem)
            have hfr : frameAt
                { p with
                  frames := updateFrame p.frames i (fun g =>
                    { g with dirtyFlagSignal := false }),
                  getNumWriteIo := p.getNumWriteIo + 1 } j = frameAt p j := by
              dsimp only [frameAt]
              exact getD_updateFrame_ne _ _ _ _ hji
            refine ⟨hrc, j, List.mem_cons_of_mem _ hmem, ?_, ?_, ?_⟩
            · rw [← hfr]
              exact hcond
            · rw [hval, hfr]
            · rw [← hfr]
              exact hwb
      · rw [if_neg hc] at h ⊢
        obtain ⟨hrc, j, hmem, hcond, hval, hwb⟩ := ih p d hnd' h
        exact ⟨hrc, j, List.mem_cons_of_mem _ hmem, hcond, hval, hwb⟩

theorem scanFrom_perm_range (n s : Nat) : (scanFrom n s).Perm (List.range n) := by
  rcases Nat.eq_zero_or_pos n with h0 | hp
  · subst h0
    exact List.Perm.refl _
  · refine (List.perm_ext_iff_of_nodup (scanFrom_nodup n s)
      (List.nodup_range n)).mpr ?_
    intro a
    exact ⟨fun ha => List.mem_range.mpr (mem_scanFrom_lt ha),
           fun ha => mem_scanFrom hp (List.mem_range.mp ha)⟩

/-- The claim's description of a frame forceFlushPool must write back:
occupied, unpinned and dirty. -/
def needsFlush (p : BM_BufferPool) (i : Nat) : Prop :=
  (frameAt p i).pageNum ≠ NO_PAGE ∧ (frameAt p i).fixCount = 0 ∧
  (frameAt p i).dirtyFlagSignal = true

instance (p : BM_BufferPool) (i : Nat) : Decidable (needsFlush p i) := by
  unfold needsFlush
  infer_instance

theorem needsFlush_lt {p : BM_BufferPool} {i : Nat} (h : needsFlush p i) :
    i < p.frames.length := by
  by_contra hlen
  have he : frameAt p i = emptyFrame := by
    dsimp only [frameAt]
    exact getD_default_of_le _ _ _ (Nat.le_of_not_lt hlen)
  unfold needsFlush at h
  rw [he] at h
  exact absurd h.2.2 (by decide)

theorem flushCond_iff_needsFlush {p : BM_BufferPool}
    (h1 : ∀ i, i < p.frames.length → (frameAt p i).dirtyFlagSignal = true →
      (frameAt p i).pageNum ≠ NO_PAGE)
    (i : Nat) : flushCond (frameAt p i) = true ↔ needsFlush p i := by
  unfold flushCond needsFlush
  constructor
  · intro h
    have hd := (Bool.and_eq_true _ _ |>.mp h).1
    have hf := eq_of_beq (Bool.and_eq_true _ _ |>.mp h).2
    have hil : i < p.frames.length := by
      by_contra hlen
      have he : frameAt p i = emptyFrame := by
        dsimp only [frameAt]
        exact getD_default_of_le _ _ _ (Nat.le_of_not_lt hlen)
      rw [he] at hd
      exact absurd hd (by decide)
    exact ⟨h1 i hil hd, hf, hd⟩
  · rintro ⟨_, hf, hd⟩
    rw [hd, hf]
    decide

/-- Claim C6: forceFlushPool writes back exactly the occupied, unpinned,
dirty frames, clearing each one's dirty bit and counting one write per
flush; pinned dirty frames are skipped without error; nothing else about
the pool changes; and when a write fails the call returns write-failed,
stops flushing, and the frames it had already flushed stay clean while
the failing frame keeps its dirty bit. -/
theorem forceFlushPool_spec (p : BM_BufferPool) (d : Disk)
    (h1 : ∀ i, i < p.frames.length → (frameAt p i).dirtyFlagSignal = true →
      (frameAt p i).pageNum ≠ NO_PAGE)
    (h2 : ∀ i, i < p.frames.length → ∀ j, j < p.frames.length → i ≠ j →
      needsFlush p i → needsFlush p j →
      (frameAt p i).pageNum ≠ (frameAt p j).pageNum) :
    (∀ i, ¬needsFlush p i → frameAt (forceFlushPool p d).2.1 i = frameAt p i) ∧
    (∀ i, (frameAt (forceFlushPool p d).2.1 i).pageNum = (frameAt p i).pageNum ∧
          (frameAt (forceFlushPool p d).2.1 i).fixCount =
            (frameAt p i).fixCount ∧
          (frameAt (forceFlushPool p d).2.1 i).data = (frameAt p i).data ∧
          (frameAt (forceFlushPool p d).2.1 i).referenceBit =
            (frameAt p i).referenceBit) ∧
    (forceFlushPool p d).2.1.getNumReadIo = p.getNumReadIo ∧
    ((forceFlushPool p d).2.1.getNumWriteIo = p.getNumWriteIo +
      ((List.range p.frames.length).filter (fun i =>
        (frameAt p i).dirtyFlagSignal &&
        !(frameAt (forceFlushPool p d).2.1 i).dirtyFlagSignal)).length) ∧
    ((∀ i, needsFlush p i → canWrite d (frameAt p i)) →
      (forceFlushPool p d).1 = RC_OK ∧
      ∀ i, needsFlush p i →
        (frameAt (forceFlushPool p d).2.1 i).dirtyFlagSignal = false ∧
        readBlock (frameAt p i).pageNum (forceFlushPool p d).2.2 =
          some (frameAt p i).data) ∧
    ((forceFlushPool p d).1 ≠ RC_OK →
      (forceFlushPool p d).1 = RC_WRITE_FAILED ∧
      ∃ j, needsFlush p j ∧
        frameAt (forceFlushPool p d).2.1 j = frameAt p j ∧
        writeBlock (frameAt p j).pageNum (frameAt p j).data
          (forceFlushPool p d).2.2 = none) := by
  have hbr := flushCond_iff_needsFlush h1
  have hnd := scanFrom_nodup p.frames.length p.head
  unfold forceFlushPool
  refine ⟨?_, ?_, ?_, ?_, ?_, ?_⟩
  · intro i hni
    rcases (flushFrames_frames (scanFrom p.frames.length p.head) p d).1 i with
      h | ⟨_, hcond, _⟩
    · exact h
    · exact absurd ((hbr i).mp hcond) hni
  · intro i
    rcases (flushFrames_frames (scanFrom p.frames.length p.head) p d).1 i with
      h | ⟨_, _, hval⟩
    · rw [h]
      exact ⟨rfl, rfl, rfl, rfl⟩
    · rw [hval]
      exact ⟨rfl, rfl, rfl, rfl⟩
  · exact (flushFrames_frames (scanFrom p.frames.length p.head) p d).2.2.2.2
  · rw [flushFrames_writeIo (scanFrom p.frames.length p.head) p d hnd]
    exact congrArg (fun t => p.getNumWriteIo + t)
      (((scanFrom_perm_range p.frames.length p.head).filter _).length_eq)
  · intro hwAll
    have hw : ∀ i ∈ scanFrom p.frames.length p.head,
        flushCond (frameAt p i) = true → canWrite d (frameAt p i) :=
      fun i _ hc => hwAll i ((hbr i).mp hc)
    have hdisj : ∀ i ∈ scanFrom p.frames.length p.head,
        ∀ j ∈ scanFrom p.frames.length p.head, i ≠ j →
        flushCond (frameAt p i) = true → flushCond (frameAt p j) = true →
        (frameAt p i).pageNum ≠ (frameAt p j).pageNum :=
      fun i hi j hj hij hci hcj =>
        h2 i (mem_scanFrom_lt hi) j (mem_scanFrom_lt hj) hij
          ((hbr i).mp hci) ((hbr j).mp hcj)
    obtain ⟨hrc, hconc⟩ :=
      flushFrames_ok (scanFrom p.frames.length p.head) p d hnd hw hdisj
    refine ⟨hrc, ?_⟩
    intro i hni
    have hil : i < p.frames.length := needsFlush_lt hni
    have hmem : i ∈ scanFrom p.frames.length p.head :=
      mem_scanFrom (Nat.lt_of_le_of_lt (Nat.zero_le i) hil) hil
    exact hconc i hmem ((hbr i).mpr hni)
  · intro hne
    obtain ⟨hrc, j, _, hcond, hval, hwb⟩ :=
      flushFrames_fail (scanFrom p.frames.length p.head) p d hnd hne
    exact ⟨hrc, j, (hbr j).mp hcond, hval, hwb⟩

/-- A pool exercising every branch of forceFlushPool: frame 0 is pinned
dirty (skipped), frame 1 is unpinned dirty (flushed), frame 2 is empty. -/
def flushTestPool : BM_BufferPool :=
  { frames := [
      { pageNum := 0, dirtyFlagSignal := true, fixCount := 1,
        referenceBit := false, data := 20 },
      { pageNum := 1, dirtyFlagSignal := true, fixCount := 0,
        referenceBit := false, data := 21 },
      emptyFrame],
    head := 0, tail := 0, occupiedFrameCount := 2, getNumReadIo := 0,
    getNumWriteIo := 0 }

/-- The three-page disk used with flushTestPool. -/
def flushTestDisk : Disk := ⟨[10, 11, 12]⟩

theorem flushTestPool_distinct : ∀ i, i < flushTestPool.frames.length →
    ∀ j, j < flushTestPool.frames.length → i ≠ j →
    needsFlush flushTestPool i → needsFlush flushTestPool j →
    (frameAt flushTestPool i).pageNum ≠ (frameAt flushTestPool j).pageNum := by
  intro i hi j hj hij hni hnj
  have hi3 : i < 3 := hi
  have hj3 : j < 3 := hj
  interval_cases i <;> interval_cases j <;>
    first
      | exact absurd rfl hij
      | exact absurd hni (by decide)
      | exact absurd hnj (by decide)

/-- Witness for forceFlushPool_spec: on flushTestPool it flushes exactly
frame 1: one write, frame 1 clean, pinned dirty frame 0 untouched. -/
theorem forceFlushPool_spec_witness :
    (∀ i, i < flushTestPool.frames.length →
      (frameAt flushTestPool i).dirtyFlagSignal = true →
      (frameAt flushTestPool i).pageNum ≠ NO_PAGE) ∧
    needsFlush flushTestPool 1 ∧
    ¬needsFlush flushTestPool 0 ∧
    (∀ i, ¬needsFlush flushTestPool i →
      frameAt (forceFlushPool flushTestPool flushTestDisk).2.1 i =
        frameAt flushTestPool i) ∧
    (forceFlushPool flushTestPool flushTestDisk).2.1.getNumWriteIo =
      flushTestPool.getNumWriteIo +
      ((List.range flushTestPool.frames.length).filter (fun i =>
        (frameAt flushTestPool i).dirtyFlagSignal &&
        !(frameAt (forceFlushPool flushTestPool flushTestDisk).2.1
          i).dirtyFlagSignal)).length :=
  ⟨by decide, by decide, by decide,
   (forceFlushPool_spec flushTestPool flushTestDisk (by decide)
     flushTestPool_distinct).1,
   (forceFlushPool_spec flushTestPool flushTestDisk (by decide)
     flushTestPool_distinct).2.2.2.1⟩

theorem clockSweep_stop {fuel : Nat} {fs : List PageFrame} {q : Nat}
    (h : (fs.getD q emptyFrame).referenceBit = false) :
    clockSweep (fuel + 1) fs q = (q, fs) := by
  simp only [clockSweep]
  rw [h]
  rfl

theorem clockSweep_step {fuel : Nat} {fs : List PageFrame} {q : Nat}
    (h : (fs.getD q emptyFrame).referenceBit = true) :
    clockSweep (fuel + 1) fs q =
      clockSweep fuel
        (updateFrame fs q (fun f => { f with referenceBit := false }))
        ((q + 1) % fs.length) := by
  simp only [clockSweep]
  rw [h]
  rfl

/-- Characterisation of the inner CLOCK sweep, given that some visited
position holds a clear reference bit within the available fuel: the sweep
stops k steps onward, every frame it stepped over had its reference bit
set (and now cleared), the frame it stops at had - when reached within
one lap - a clear bit already, and no frame changes except for cleared
reference bits. -/
theorem clockSweep_term (fuel : Nat) : ∀ (fs : List PageFrame) (q : Nat),
    q < fs.length →
    (fs.length + 1 ≤ fuel ∨ ∃ m, m < fuel ∧
      (fs.getD ((q + m) % fs.length) emptyFrame).referenceBit = false) →
    ∃ k,
      (clockSweep fuel fs q).1 = (q + k) % fs.length ∧
      (∀ m, m < k →
        (fs.getD ((q + m) % fs.length) emptyFrame).referenceBit = true) ∧
      (k < fs.length →
        (fs.getD ((q + k) % fs.length) emptyFrame).referenceBit = false) ∧
      ((clockSweep fuel fs q).2.getD (clockSweep fuel fs q).1
        emptyFrame).referenceBit = false ∧
      (∀ j, (clockSweep fuel fs q).2.getD j emptyFrame =
          fs.getD j emptyFrame ∨
        (clockSweep fuel fs q).2.getD j emptyFrame =
          { fs.getD j emptyFrame with referenceBit := false }) := by
  induction fuel with
  | zero =>
      intro fs q hq hterm
      rcases hterm with hge | ⟨m, hm, _⟩
      · omega
      · exact absurd hm (Nat.not_lt_zero m)
  | succ fuel ih =>
      intro fs q hq hterm
      have hn : 0 < fs.length := Nat.lt_of_le_of_lt (Nat.zero_le q) hq
      by_cases href : (fs.getD q emptyFrame).referenceBit = true
      · rw [clockSweep_step href]
        have hlen1 : (updateFrame fs q (fun f =>
            { f with referenceBit := false })).length = fs.length :=
          length_updateFrame fs q _
        have hq1 : (q + 1) % fs.length < fs.length := Nat.mod_lt _ hn
        have hfr1 : ∀ j, j ≠ q →
            (updateFrame fs q (fun f =>
              { f with referenceBit := false })).getD j emptyFrame =
            fs.getD j emptyFrame := by
          intro j hj
          exact getD_updateFrame_ne _ _ _ _ hj
        have hfrq : (updateFrame fs q (fun f =>
            { f with referenceBit := false })).getD q emptyFrame =
            { fs.getD q emptyFrame with referenceBit := false } :=
          getD_updateFrame_self _ _ _ hq
        have hpos : ∀ m : Nat, (((q + 1) % fs.length + m) %
            (updateFrame fs q (fun f =>
              { f with referenceBit := false })).length) =
            (q + 1 + m) % fs.length := by
          intro m
          rw [hlen1, Nat.mod_add_mod]
        -- the sweep terminates within the remaining fuel
        have hterm1 : (updateFrame fs q (fun f =>
            { f with referenceBit := false })).length + 1 ≤ fuel ∨
            ∃ m1, m1 < fuel ∧
            ((updateFrame fs q (fun f =>
              { f with referenceBit := false })).getD
              (((q + 1) % fs.length + m1) %
                (updateFrame fs q (fun f =>
                  { f with referenceBit := false })).length)
              emptyFrame).referenceBit = false := by
          right
          rcases hterm with hge | ⟨m, hm, hmf⟩
          · refine ⟨fs.length - 1, by omega, ?_⟩
            rw [hpos (fs.length - 1)]
            have harith : q + 1 + (fs.length - 1) = q + fs.length := by omega
            rw [harith]
            have hqq : (q + fs.length) % fs.length = q := by
              rw [Nat.add_mod_right, Nat.mod_eq_of_lt hq]
            rw [hqq, hfrq]
          · cases m with
            | zero =>
                rw [Nat.add_zero, Nat.mod_eq_of_lt hq] at hmf
                rw [href] at hmf
                cases hmf
            | succ m1 =>
                refine ⟨m1, Nat.lt_of_succ_lt_succ hm, ?_⟩
                rw [hpos m1]
                have harith : q + 1 + m1 = q + (m1 + 1) := by omega
                rw [harith]
                by_cases hpq : (q + (m1 + 1)) % fs.length = q
                · rw [hpq, hfrq]
                · rw [hfr1 _ hpq]
                  exact hmf
        obtain ⟨k, hk1, hk2, hk3, hk4, hk5⟩ := ih
          (updateFrame fs q (fun f => { f with referenceBit := false }))
          ((q + 1) % fs.length) (by rw [hlen1]; exact hq1) hterm1
        refine ⟨k + 1, ?_, ?_, ?_, ?_, ?_⟩
        · rw [hk1, hpos k]
          have : q + 1 + k = q + (k + 1) := by omega
          rw [this]
        · intro m hm1
          cases m with
          | zero =>
              rw [Nat.add_zero, Nat.mod_eq_of_lt hq]
              exact href
          | succ m1 =>
              have hm1k : m1 < k := Nat.lt_of_succ_lt_succ hm1
              have := hk2 m1 hm1k
              rw [hpos m1] at this
              have harith : q + 1 + m1 = q + (m1 + 1) := by omega
              rw [harith] at this
              by_cases hpq : (q + (m1 + 1)) % fs.length = q
              · rw [hpq, hfrq] at this
                cases this
              · rw [hfr1 _ hpq] at this
                exact this
        · intro hklt
          have hk3' := hk3 (by rw [hlen1]; omega)
          rw [hpos k] at hk3'
          have harith : q + 1 + k = q + (k + 1) := by omega
          rw [harith] at hk3'
          have hpq : (q + (k + 1)) % fs.length ≠ q := by
            intro hpq
            rcases Nat.lt_or_ge (q + (k + 1)) fs.length with hcase | hcase
            · rw [Nat.mod_eq_of_lt hcase] at hpq
              omega
            · have h7 : q + (k + 1) - fs.length < fs.length := by omega
              rw [Nat.mod_eq_sub_mod hcase, Nat.mod_eq_of_lt h7] at hpq
              omega
          rw [hfr1 _ hpq] at hk3'
          exact hk3'
        · exact hk4
        · intro j
          rcases hk5 j with h1 | h1
          · by_cases hpq : j = q
            · subst hpq
              rw [h1, hfrq]
              exact Or.inr rfl
            · rw [h1, hfr1 _ hpq]
              exact Or.inl rfl
          · by_cases hpq : j = q
            · subst hpq
              rw [h1, hfrq]
              exact Or.inr rfl
            · rw [h1, hfr1 _ hpq]
              exact Or.inr rfl
      · have hreff : (fs.getD q emptyFrame).referenceBit = false :=
          Bool.not_eq_true _ |>.mp href
        rw [clockSweep_stop hreff]
        refine ⟨0, ?_, ?_, ?_, ?_, ?_⟩
        · rw [Nat.add_zero, Nat.mod_eq_of_lt hq]
        · intro m hm
          exact absurd hm (Nat.not_lt_zero m)
        · intro _
          rw [Nat.add_zero, Nat.mod_eq_of_lt hq]
          exact hreff
        · exact hreff
        · intro j
          exact Or.inl rfl

/-- The result of pinning page 4 into the full CLOCK pool of the
second-chance scenario. -/
def clockThreePin4 : RC × BM_BufferPool × Disk × Option (Int × Nat) :=
  pinPage RS_CLOCK clockThreeState disk0 4

/-- Claim C7 (amended): the concrete second-chance scenario holds - after
pin+unpin of pages 1, 2, 3 all reference bits are set, and pin(4) sweeps
once, clears the bits of pages 1, 2, 3, selects the frame holding page 1
and yields frameContents = [4, 2, 3] with numReadIO = 4 - and in general
the victim sweep clears the reference bits of the reference_bit = 1
frames it steps over and returns the first frame it reaches whose
reference bit is clear (with no pin-count check in this final step). -/
theorem clock_second_chance_scenario :
    getFrameContents clockThreeState = [1, 2, 3] ∧
    (∀ i, i < 3 → (frameAt clockThreeState i).referenceBit = true ∧
      (frameAt clockThreeState i).fixCount = 0) ∧
    clockThreeState.getNumReadIo = 3 ∧
    getFrameContents clockThreePin4.2.1 = [4, 2, 3] ∧
    clockThreePin4.2.1.getNumReadIo = 4 ∧
    ((frameAt clockThreePin4.2.1 0).referenceBit = true ∧
     (frameAt clockThreePin4.2.1 1).referenceBit = false ∧
     (frameAt clockThreePin4.2.1 2).referenceBit = false) ∧
    (clockSweep (clockThreeState.frames.length + 1)
      clockThreeState.frames 0).1 = 0 ∧
    (∀ (fs : List PageFrame) (q : Nat), q < fs.length →
      ∃ k,
        (clockSweep (fs.length + 1) fs q).1 = (q + k) % fs.length ∧
        (∀ m, m < k →
          (fs.getD ((q + m) % fs.length) emptyFrame).referenceBit = true) ∧
        (k < fs.length →
          (fs.getD ((q + k) % fs.length) emptyFrame).referenceBit = false) ∧
        ((clockSweep (fs.length + 1) fs q).2.getD
          (clockSweep (fs.length + 1) fs q).1 emptyFrame).referenceBit =
          false ∧
        (∀ j, (clockSweep (fs.length + 1) fs q).2.getD j emptyFrame =
            fs.getD j emptyFrame ∨
          (clockSweep (fs.length + 1) fs q).2.getD j emptyFrame =
            { fs.getD j emptyFrame with referenceBit := false })) :=
  ⟨by decide, by decide, by decide, by decide, by decide, by decide,
   by decide,
   fun fs q hq => clockSweep_term (fs.length + 1) fs q hq
     (Or.inl (Nat.le_refl _))⟩

/-- Witness for the general sweep clause of clock_second_chance_scenario,
instantiated at the scenario pool with the hand on frame 0. -/
theorem clock_second_chance_scenario_witness :
    0 < clockThreeState.frames.length ∧
    (∃ k,
      (clockSweep (clockThreeState.frames.length + 1)
        clockThreeState.frames 0).1 =
        (0 + k) % clockThreeState.frames.length ∧
      (∀ m, m < k →
        (clockThreeState.frames.getD ((0 + m) %
          clockThreeState.frames.length) emptyFrame).referenceBit = true) ∧
      (k < clockThreeState.frames.length →
        (clockThreeState.frames.getD ((0 + k) %
          clockThreeState.frames.length) emptyFrame).referenceBit = false) ∧
      ((clockSweep (clockThreeState.frames.length + 1)
        clockThreeState.frames 0).2.getD
        (clockSweep (clockThreeState.frames.length + 1)
          clockThreeState.frames 0).1 emptyFrame).referenceBit = false ∧
      (∀ j, (clockSweep (clockThreeState.frames.length + 1)
          clockThreeState.frames 0).2.getD j emptyFrame =
          clockThreeState.frames.getD j emptyFrame ∨
        (clockSweep (clockThreeState.frames.length + 1)
          clockThreeState.frames 0).2.getD j emptyFrame =
          { clockThreeState.frames.getD j emptyFrame with
            referenceBit := false })) :=
  ⟨by decide,
   clock_second_chance_scenario.2.2.2.2.2.2.2 clockThreeState.frames 0
     (by decide)⟩

theorem clockSweep_length (fuel : Nat) : ∀ (fs : List PageFrame) (i : Nat),
    (clockSweep fuel fs i).2.length = fs.length := by
  induction fuel with
  | zero => intro fs i; rfl
  | succ fuel ih =>
      intro fs i
      by_cases h : (fs.getD i emptyFrame).referenceBit = true
      · rw [clockSweep_step h, ih]
        exact length_updateFrame fs i _
      · rw [clockSweep_stop (Bool.not_eq_true _ |>.mp h)]

theorem flushFrames_length (l : List Nat) (p : BM_BufferPool) (d : Disk) :
    (flushFrames l p d).2.1.frames.length = p.frames.length := by
  induction l generalizing p d with
  | nil => rfl
  | cons i rest ih =>
      simp only [flushFrames]
      by_cases hc : ((p.frames.getD i emptyFrame).dirtyFlagSignal &&
          (p.frames.getD i emptyFrame).fixCount == 0) = true
      · rw [if_pos hc]
        cases hw : writeBlock (p.frames.getD i emptyFrame).pageNum
            (p.frames.getD i emptyFrame).data d with
        | none => rfl
        | some d2 =>
            dsimp only
            rw [ih]
            dsimp only
            exact length_updateFrame p.frames i _
      · rw [if_neg hc]
        exact ih p d

/-- The warm-up invariant of the empty-frame path: while the pool is not
full, head sits on the first empty frame, and the occupied frames are
exactly frames 0 .. occupiedFrameCount - 1. -/
def warmupInv (N : Nat) (p : BM_BufferPool) : Prop :=
  p.frames.length = N ∧ p.occupiedFrameCount ≤ N ∧
  (p.occupiedFrameCount < N →
    p.head = p.occupiedFrameCount ∧
    ∀ i, i < N → ((frameAt p i).pageNum ≠ NO_PAGE ↔
      i < p.occupiedFrameCount))

theorem warmupInv_init (N : Nat) : warmupInv N (initBufferPool N) := by
  refine ⟨by simp [initBufferPool], Nat.zero_le N, ?_⟩
  intro _
  refine ⟨rfl, ?_⟩
  intro i hi
  have : frameAt (initBufferPool N) i = emptyFrame := by
    dsimp only [frameAt, initBufferPool]
    rcases Nat.lt_or_ge i N with h | h
    · rw [List.getD_eq_getElem?_getD, List.getElem?_replicate_of_lt h]
      rfl
    · exact getD_default_of_le _ _ _ (by simpa using h)
  rw [this]
  constructor
  · intro hc
    exact absurd rfl hc
  · intro hc
    exact absurd hc (Nat.not_lt_zero i)

/-- Pools with identical length, occupancy, head and page numbers satisfy
the same warm-up invariant. -/
theorem warmupInv_congr {N : Nat} {p p' : BM_BufferPool}
    (h : warmupInv N p)
    (hlen : p'.frames.length = p.frames.length)
    (hocc : p'.occupiedFrameCount = p.occupiedFrameCount)
    (hhead : p'.head = p.head)
    (hpn : ∀ i, (frameAt p' i).pageNum = (frameAt p i).pageNum) :
    warmupInv N p' := by
  obtain ⟨h1, h2, h3⟩ := h
  refine ⟨hlen.trans h1, hocc ▸ h2, ?_⟩
  intro hlt
  rw [hocc] at hlt
  obtain ⟨h4, h5⟩ := h3 hlt
  refine ⟨by rw [hhead, hocc, h4], ?_⟩
  intro i hi
  rw [hpn i, hocc]
  exact h5 i hi

theorem warmupInv_full {N : Nat} {p' : BM_BufferPool}
    (hlen : p'.frames.length = N) (hocc : p'.occupiedFrameCount = N) :
    warmupInv N p' :=
  ⟨hlen, Nat.le_of_eq hocc, fun h => absurd (hocc ▸ h) (Nat.lt_irrefl N)⟩

/-- On a miss in a non-full pool satisfying the invariant, the head frame
is the first empty frame and the requested page is not NO_PAGE. -/
theorem warmup_miss_facts {N : Nat} {p : BM_BufferPool} {n : Int}
    (h : warmupInv N p) (ho : p.occupiedFrameCount < N)
    (hmiss : findFrom p n = none) :
    p.head = p.occupiedFrameCount ∧
    (frameAt p p.occupiedFrameCount).pageNum = NO_PAGE ∧ n ≠ NO_PAGE := by
  obtain ⟨h1, _, h3⟩ := h
  obtain ⟨h4, h5⟩ := h3 ho
  have hocclen : p.occupiedFrameCount < p.frames.length := by rw [h1]; exact ho
  have hempty : (frameAt p p.occupiedFrameCount).pageNum = NO_PAGE := by
    have := h5 p.occupiedFrameCount ho
    by_cases hc : (frameAt p p.occupiedFrameCount).pageNum = NO_PAGE
    · exact hc
    · exact absurd (this.mp hc) (Nat.lt_irrefl _)
  refine ⟨h4, hempty, ?_⟩
  have hmem : p.occupiedFrameCount ∈ scanFrom p.frames.length p.head :=
    mem_scanFrom (Nat.lt_of_le_of_lt (Nat.zero_le _) hocclen) hocclen
  have hnotp := List.find?_eq_none.mp hmiss _ hmem
  intro hT
  apply hnotp
  have heqn : (p.frames.getD p.occupiedFrameCount emptyFrame).pageNum = n := by
    have he : (frameAt p p.occupiedFrameCount).pageNum = NO_PAGE := hempty
    dsimp only [frameAt] at he
    rw [he, hT]
  rw [heqn]
  simp

/-- The empty-frame path binds exactly the frame at head = occ and
advances occ; the invariant survives. -/
theorem warmupInv_bind {N : Nat} {p : BM_BufferPool} {n : Int} {b : Bool}
    (h : warmupInv N p) (ho : p.occupiedFrameCount < N)
    (hmiss : findFrom p n = none) :
    warmupInv N (bindEmptyFrame p n b) ∧
    (frameAt (bindEmptyFrame p n b) p.occupiedFrameCount).pageNum = n ∧
    (∀ i, i ≠ p.occupiedFrameCount →
      (frameAt (bindEmptyFrame p n b) i).pageNum = (frameAt p i).pageNum) ∧
    (bindEmptyFrame p n b).occupiedFrameCount = p.occupiedFrameCount + 1 ∧
    (bindEmptyFrame p n b).frames.length = p.frames.length := by
  obtain ⟨hhead, hempty, hnn⟩ := warmup_miss_facts h ho hmiss
  obtain ⟨h1, h2, h3⟩ := h
  have hocclen : p.occupiedFrameCount < p.frames.length := by rw [h1]; exact ho
  have hAt : (frameAt (bindEmptyFrame p n b) p.occupiedFrameCount).pageNum
      = n := by
    dsimp only [frameAt, bindEmptyFrame]
    rw [hhead, getD_updateFrame_self _ _ _ hocclen]
  have hOther : ∀ i, i ≠ p.occupiedFrameCount →
      (frameAt (bindEmptyFrame p n b) i).pageNum =
        (frameAt p i).pageNum := by
    intro i hi
    dsimp only [frameAt, bindEmptyFrame]
    rw [hhead, getD_updateFrame_ne _ _ _ _ hi]
  have hOcc : (bindEmptyFrame p n b).occupiedFrameCount =
      p.occupiedFrameCount + 1 := rfl
  have hLen : (bindEmptyFrame p n b).frames.length = p.frames.length := by
    dsimp only [bindEmptyFrame]
    exact length_updateFrame _ _ _
  refine ⟨⟨hLen.trans h1, by rw [hOcc]; omega, ?_⟩, hAt, hOther, hOcc, hLen⟩
  intro hlt
  rw [hOcc] at hlt
  constructor
  · -- head of the bind
    show (if (p.head + 1) % p.frames.length ≠ p.head
        then (p.head + 1) % p.frames.length else p.head) =
      (bindEmptyFrame p n b).occupiedFrameCount
    rw [hOcc, hhead]
    have hlt' : p.occupiedFrameCount + 1 < p.frames.length := by
      rw [h1]; exact hlt
    have hmod : (p.occupiedFrameCount + 1) % p.frames.length =
        p.occupiedFrameCount + 1 := Nat.mod_eq_of_lt hlt'
    rw [hmod]
    rw [if_pos (by omega)]
  · intro i hi
    by_cases hio : i = p.occupiedFrameCount
    · subst hio
      rw [hAt, hOcc]
      constructor
      · intro _
        omega
      · intro _
        exact hnn
    · rw [hOther i hio, hOcc]
      have := (h3 ho).2 i hi
      rw [this]
      omega

theorem readIntoFrame_pageNum (p : BM_BufferPool) (d : Disk) (i : Nat)
    (n : Int) (j : Nat) :
    (frameAt (readIntoFrame p d i n).2.1 j).pageNum = (frameAt p j).pageNum := by
  simp only [readIntoFrame]
  cases hrb : readBlock n (ensureCapacity (n + 1) d) with
  | none => rfl
  | some c =>
      dsimp only [frameAt]
      rcases getD_updateFrame_or p.frames j i
        (fun f => { f with data := c }) with h1 | ⟨h2, h3⟩
      · rw [h1]
      · subst h3
        rw [h2]

theorem readIntoFrame_occ (p : BM_BufferPool) (d : Disk) (i : Nat) (n : Int) :
    (readIntoFrame p d i n).2.1.occupiedFrameCount = p.occupiedFrameCount := by
  simp only [readIntoFrame]
  cases hrb : readBlock n (ensureCapacity (n + 1) d) with
  | none => rfl
  | some c => rfl

theorem readIntoFrame_head (p : BM_BufferPool) (d : Disk) (i : Nat) (n : Int) :
    (readIntoFrame p d i n).2.1.head = p.head := by
  simp only [readIntoFrame]
  cases hrb : readBlock n (ensureCapacity (n + 1) d) with
  | none => rfl
  | some c => rfl

theorem readIntoFrame_length (p : BM_BufferPool) (d : Disk) (i : Nat)
    (n : Int) :
    (readIntoFrame p d i n).2.1.frames.length = p.frames.length := by
  simp only [readIntoFrame]
  cases hrb : readBlock n (ensureCapacity (n + 1) d) with
  | none => rfl
  | some c =>
      dsimp only
      exact length_updateFrame _ _ _

theorem warmupInv_readIntoFrame {N : Nat} {p : BM_BufferPool} {d : Disk}
    {i : Nat} {n : Int} (h : warmupInv N p) :
    warmupInv N (readIntoFrame p d i n).2.1 :=
  warmupInv_congr h (readIntoFrame_length p d i n) (readIntoFrame_occ p d i n)
    (readIntoFrame_head p d i n) (readIntoFrame_pageNum p d i n)

/-- pinPageFIFO preserves the warm-up invariant. -/
theorem pinPageFIFO_warmup {N : Nat} (p : BM_BufferPool) (d : Disk) (n : Int)
    (h : warmupInv N p) : warmupInv N (pinPageFIFO p d n).2.1 := by
  cases hf : findFrom p n with
  | some j =>
      have hj := findFrom_some_lt hf
      have hpg := findFrom_some_page hf
      have heq : pinPageFIFO p d n =
          (RC_OK,
           { p with frames := updateFrame p.frames j (fun f =>
               { f with pageNum := n, fixCount := f.fixCount + 1 }) },
           d, some (n, (p.frames.getD j emptyFrame).data)) := by
        simp only [pinPageFIFO, hf]
      rw [heq]
      refine warmupInv_congr h ?_ rfl rfl ?_
      · dsimp only
        exact length_updateFrame _ _ _
      · intro i
        dsimp only [frameAt]
        by_cases hij : i = j
        · subst hij
          rw [getD_updateFrame_self _ _ _ hj]
          exact hpg.symm
        · rw [getD_updateFrame_ne _ _ _ _ hij]
  | none =>
      by_cases ho : p.occupiedFrameCount < p.frames.length
      · have hoN : p.occupiedFrameCount < N := by
          rw [← h.1]
          exact ho
        have heq : pinPageFIFO p d n =
            readIntoFrame (bindEmptyFrame p n false) d p.head n := by
          simp only [pinPageFIFO, hf, if_pos ho]
        rw [heq]
        exact warmupInv_readIntoFrame (warmupInv_bind h hoN hf).1
      · have hoccN : p.occupiedFrameCount = N := by
          have h1 := h.1
          have h2 := h.2.1
          omega
        cases hv : (fifoVictimOrder p.frames.length p.tail p.head).find?
            (fun i => (p.frames.getD i emptyFrame).fixCount == 0) with
        | none =>
            have heq : pinPageFIFO p d n = readIntoFrame p d p.head n := by
              simp only [pinPageFIFO, hf, if_neg ho, hv]
            rw [heq]
            exact warmupInv_readIntoFrame h
        | some v =>
            cases hfl : flushVictim p d v with
            | error d1 =>
                have heq : pinPageFIFO p d n = (RC_WRITE_FAILED, p, d1, none) := by
                  simp only [pinPageFIFO, hf, if_neg ho, hv, hfl]
                rw [heq]
                exact h
            | ok pr =>
                obtain ⟨p1, d2⟩ := pr
                obtain ⟨hfr, -, hocc1, -, -⟩ := flushVictim_ok_inv hfl
                have heq : pinPageFIFO p d n =
                    readIntoFrame
                      { p1 with
                        frames := updateFrame p1.frames v (fun f =>
                          { f with pageNum := n, fixCount := f.fixCount + 1 }),
                        tail := (v + 1) % p1.frames.length,
                        head := v } d2 v n := by
                  simp only [pinPageFIFO, hf, if_neg ho, hv, hfl]
                rw [heq]
                apply warmupInv_full
                · rw [readIntoFrame_length]
                  dsimp only
                  rw [length_updateFrame, hfr]
                  exact h.1
                · rw [readIntoFrame_occ]
                  dsimp only
                  rw [hocc1]
                  exact hoccN

/-- pinPageCLOCK preserves the warm-up invariant. -/
theorem pinPageCLOCK_warmup {N : Nat} (p : BM_BufferPool) (d : Disk) (n : Int)
    (h : warmupInv N p) : warmupInv N (pinPageCLOCK p d n).2.1 := by
  cases hf : findFrom p n with
  | some j =>
      have hj := findFrom_some_lt hf
      have hpg := findFrom_some_page hf
      have heq : pinPageCLOCK p d n =
          (RC_OK,
           { p with frames := updateFrame p.frames j (fun f =>
               { f with referenceBit := true, pageNum := n,
                        fixCount := f.fixCount + 1 }) },
           d, some (n, (p.frames.getD j emptyFrame).data)) := by
        simp only [pinPageCLOCK, hf]
      rw [heq]
      refine warmupInv_congr h ?_ rfl rfl ?_
      · dsimp only
        exact length_updateFrame _ _ _
      · intro i
        dsimp only [frameAt]
        by_cases hij : i = j
        · subst hij
          rw [getD_updateFrame_self _ _ _ hj]
          exact hpg.symm
        · rw [getD_updateFrame_ne _ _ _ _ hij]
  | none =>
      by_cases ho : p.occupiedFrameCount < p.frames.length
      · have hoN : p.occupiedFrameCount < N := by
          rw [← h.1]
          exact ho
        have heq : pinPageCLOCK p d n =
            readIntoFrame (bindEmptyFrame p n true) d p.head n := by
          simp only [pinPageCLOCK, hf, if_pos ho]
        rw [heq]
        exact warmupInv_readIntoFrame (warmupInv_bind h hoN hf).1
      · have hoccN : p.occupiedFrameCount = N := by
          have h1 := h.1
          have h2 := h.2.1
          omega
        cases hv : (scanFrom p.frames.length p.head).find?
            (fun i => (p.frames.getD i emptyFrame).fixCount == 0) with
        | none =>
            have heq : pinPageCLOCK p d n = readIntoFrame p d p.head n := by
              simp only [pinPageCLOCK, hf, if_neg ho, hv]
            rw [heq]
            exact warmupInv_readIntoFrame h
        | some q =>
            cases hfl : flushVictim
                { p with frames :=
                  (clockSweep (p.frames.length + 1) p.frames q).2 } d
                (clockSweep (p.frames.length + 1) p.frames q).1 with
            | error d1 =>
                have heq : pinPageCLOCK p d n =
                    (RC_WRITE_FAILED,
                     { p with frames :=
                       (clockSweep (p.frames.length + 1) p.frames q).2 },
                     d1, none) := by
                  simp only [pinPageCLOCK, hf, if_neg ho, hv, hfl]
                rw [heq]
                apply warmupInv_full
                · dsimp only
                  rw [clockSweep_length]
                  exact h.1
                · exact hoccN
            | ok pr =>
                obtain ⟨p1, d2⟩ := pr
                obtain ⟨hfr, -, hocc1, -, -⟩ := flushVictim_ok_inv hfl
                have heq : pinPageCLOCK p d n =
                    readIntoFrame
                      { p1 with
                        frames := updateFrame p1.frames
                          (clockSweep (p.frames.length + 1) p.frames q).1
                          (fun f =>
                            { f with referenceBit := true, pageNum := n,
                                     fixCount := f.fixCount + 1 }),
                        head :=
                          ((clockSweep (p.frames.length + 1) p.frames q).1 + 1)
                            % p1.frames.length } d2
                      (clockSweep (p.frames.length + 1) p.frames q).1 n := by
                  simp only [pinPageCLOCK, hf, if_neg ho, hv, hfl]
                rw [heq]
                apply warmupInv_full
                · rw [readIntoFrame_length]
                  dsimp only
                  rw [length_updateFrame, hfr]
                  dsimp only
                  rw [clockSweep_length]
                  exact h.1
                · rw [readIntoFrame_occ]
                  dsimp only
                  rw [hocc1]
                  exact hoccN

/-- unpinPage preserves the warm-up invariant: it only changes a fix
count. -/
theorem warmupInv_unpin {N : Nat} (p : BM_BufferPool) (n : Int)
    (h : warmupInv N p) : warmupInv N (unpinPage p n).2 := by
  cases hf : findFrom p n with
  | none =>
      simp only [unpinPage, hf]
      exact h
  | some j =>
      simp only [unpinPage, hf]
      refine warmupInv_congr h ?_ rfl rfl ?_
      · dsimp only
        exact length_updateFrame _ _ _
      · intro i
        dsimp only [frameAt]
        rcases getD_updateFrame_or p.frames i j
          (fun f => { f with fixCount := f.fixCount - 1 }) with h1 | ⟨h2, h3⟩
        · rw [h1]
        · subst h3
          rw [h2]

/-- markDirty preserves the warm-up invariant: it only sets a dirty
bit. -/
theorem warmupInv_mark {N : Nat} (p : BM_BufferPool) (n : Int)
    (h : warmupInv N p) : warmupInv N (markDirty p n).2 := by
  cases hf : findFrom p n with
  | none =>
      simp only [markDirty, hf]
      exact h
  | some j =>
      simp only [markDirty, hf]
      refine warmupInv_congr h ?_ rfl rfl ?_
      · dsimp only
        exact length_updateFrame _ _ _
      · intro i
        dsimp only [frameAt]
        rcases getD_updateFrame_or p.frames i j
          (fun f => { f with dirtyFlagSignal := true }) with h1 | ⟨h2, h3⟩
        · rw [h1]
        · subst h3
          rw [h2]

/-- forcePage preserves the warm-up invariant: it only clears a dirty
bit and counts a write. -/
theorem warmupInv_force {N : Nat} (p : BM_BufferPool) (d : Disk) (n : Int)
    (h : warmupInv N p) : warmupInv N (forcePage p d n).2.1 := by
  cases hf : (scanFrom p.frames.length p.head).find?
      (fun i => (p.frames.getD i emptyFrame).pageNum == n &&
                (p.frames.getD i emptyFrame).dirtyFlagSignal) with
  | none =>
      simp only [forcePage, hf]
      exact h
  | some i =>
      cases hw : writeBlock (p.frames.getD i emptyFrame).pageNum
          (p.frames.getD i emptyFrame).data d with
      | none =>
          simp only [forcePage, hf, hw]
          exact h
      | some d2 =>
          simp only [forcePage, hf, hw]
          refine warmupInv_congr h ?_ rfl rfl ?_
          · dsimp only
            exact length_updateFrame _ _ _
          · intro j
            dsimp only [frameAt]
            rcases getD_updateFrame_or p.frames j i
              (fun f => { f with dirtyFlagSignal := false }) with h1 | ⟨h2, h3⟩
            · rw [h1]
            · subst h3
              rw [h2]

/-- forceFlushPool preserves the warm-up invariant: flushed frames only
lose their dirty bit. -/
theorem warmupInv_flushAll {N : Nat} (p : BM_BufferPool) (d : Disk)
    (h : warmupInv N p) : warmupInv N (forceFlushPool p d).2.1 := by
  unfold forceFlushPool
  obtain ⟨hfr, hh, -, ho, -⟩ :=
    flushFrames_frames (scanFrom p.frames.length p.head) p d
  refine warmupInv_congr h ?_ ho hh ?_
  · exact flushFrames_length _ _ _
  · intro i
    rcases hfr i with h1 | ⟨-, -, hval⟩
    · rw [h1]
    · rw [hval]
      rfl

/-- Under FIFO or CLOCK, every public operation preserves the warm-up
invariant. -/
theorem warmupInv_applyOp {N : Nat} (s : ReplacementStrategy)
    (hs : s = RS_FIFO ∨ s = RS_CLOCK) (st : BM_BufferPool × Disk)
    (op : PoolOp) (h : warmupInv N st.1) :
    warmupInv N (applyOp s st op).1 := by
  cases op with
  | pin n =>
      rcases hs with hs | hs <;> subst hs
      · exact pinPageFIFO_warmup st.1 st.2 n h
      · exact pinPageCLOCK_warmup st.1 st.2 n h
  | unpin n => exact warmupInv_unpin st.1 n h
  | mark n => exact warmupInv_mark st.1 n h
  | force n => exact warmupInv_force st.1 st.2 n h
  | flushAll => exact warmupInv_flushAll st.1 st.2 h

/-- Under FIFO or CLOCK, the warm-up invariant survives any operation
sequence. -/
theorem warmupInv_runOps {N : Nat} (s : ReplacementStrategy)
    (hs : s = RS_FIFO ∨ s = RS_CLOCK) (st : BM_BufferPool × Disk)
    (ops : List PoolOp) (h : warmupInv N st.1) :
    warmupInv N (runOps s st ops).1 := by
  induction ops generalizing st with
  | nil => exact h
  | cons op rest ih =>
      exact ih (applyOp s st op) (warmupInv_applyOp s hs st op h)

/-- Under FIFO or CLOCK, a pin miss in a non-full pool satisfying the
invariant binds the requested page into the first empty frame (frame
number occupiedFrameCount), touches no other frame's page number, and
advances the occupancy count. -/
theorem pinPage_warmup_miss {N : Nat} (s : ReplacementStrategy)
    (hs : s = RS_FIFO ∨ s = RS_CLOCK) (p : BM_BufferPool) (d : Disk) (n : Int)
    (h : warmupInv N p) (ho : p.occupiedFrameCount < N)
    (hmiss : findFrom p n = none) :
    (frameAt p p.occupiedFrameCount).pageNum = NO_PAGE ∧
    (frameAt (pinPage s p d n).2.1 p.occupiedFrameCount).pageNum = n ∧
    (∀ i, i ≠ p.occupiedFrameCount →
      (frameAt (pinPage s p d n).2.1 i).pageNum = (frameAt p i).pageNum) ∧
    (pinPage s p d n).2.1.occupiedFrameCount = p.occupiedFrameCount + 1 := by
  have holen : p.occupiedFrameCount < p.frames.length := by
    rw [h.1]
    exact ho
  obtain ⟨-, hempty, -⟩ := warmup_miss_facts h ho hmiss
  rcases hs with hs | hs <;> subst hs
  · obtain ⟨-, hAt, hOther, hOcc, -⟩ := @warmupInv_bind _ _ _ false h ho hmiss
    have hP : (pinPage RS_FIFO p d n).2.1 =
        (readIntoFrame (bindEmptyFrame p n false) d p.head n).2.1 := by
      show (pinPageFIFO p d n).2.1 = _
      simp only [pinPageFIFO, hmiss, if_pos holen]
    refine ⟨hempty, ?_, ?_, ?_⟩
    · rw [hP, readIntoFrame_pageNum]
      exact hAt
    · intro i hi
      rw [hP, readIntoFrame_pageNum]
      exact hOther i hi
    · rw [hP, readIntoFrame_occ]
      exact hOcc
  · obtain ⟨-, hAt, hOther, hOcc, -⟩ := @warmupInv_bind _ _ _ true h ho hmiss
    have hP : (pinPage RS_CLOCK p d n).2.1 =
        (readIntoFrame (bindEmptyFrame p n true) d p.head n).2.1 := by
      show (pinPageCLOCK p d n).2.1 = _
      simp only [pinPageCLOCK, hmiss, if_pos holen]
    refine ⟨hempty, ?_, ?_, ?_⟩
    · rw [hP, readIntoFrame_pageNum]
      exact hAt
    · intro i hi
      rw [hP, readIntoFrame_pageNum]
      exact hOther i hi
    · rw [hP, readIntoFrame_occ]
      exact hOcc

/-- C9 (amended): for FIFO and CLOCK - but not LRU - the warm-up
invariant holds after every operation sequence from a fresh pool, so as
long as occupiedFrameCount < N a pin miss binds the requested page into
the empty frames in fixed creation order (frame 0, then 1, then 2, ...),
never rebinding an already-occupied frame; the occupancy count advances
by one per warm-up miss. -/
theorem warmup_creation_order (s : ReplacementStrategy)
    (hs : s = RS_FIFO ∨ s = RS_CLOCK) (N : Nat) (d0 : Disk)
    (ops : List PoolOp) :
    warmupInv N (runOps s (initBufferPool N, d0) ops).1 ∧
    (∀ p d n, warmupInv N p → p.occupiedFrameCount < N →
      findFrom p n = none →
      (frameAt p p.occupiedFrameCount).pageNum = NO_PAGE ∧
      (frameAt (pinPage s p d n).2.1 p.occupiedFrameCount).pageNum = n ∧
      (∀ i, i ≠ p.occupiedFrameCount →
        (frameAt (pinPage s p d n).2.1 i).pageNum = (frameAt p i).pageNum) ∧
      (pinPage s p d n).2.1.occupiedFrameCount =
        p.occupiedFrameCount + 1) := by
  refine ⟨warmupInv_runOps s hs _ ops (warmupInv_init N), ?_⟩
  intro p d n h ho hmiss
  exact pinPage_warmup_miss s hs p d n h ho hmiss

/-- Witness for C9: the amended warm-up statement instantiated at FIFO,
a 2-frame pool, disk0 and a concrete operation sequence. -/
theorem warmup_creation_order_witness :
    (RS_FIFO = RS_FIFO ∨ RS_FIFO = RS_CLOCK) ∧
    (warmupInv 2 (runOps RS_FIFO (initBufferPool 2, disk0)
        [PoolOp.pin 1, PoolOp.unpin 1, PoolOp.pin 2]).1 ∧
     (∀ p d n, warmupInv 2 p → p.occupiedFrameCount < 2 →
       findFrom p n = none →
       (frameAt p p.occupiedFrameCount).pageNum = NO_PAGE ∧
       (frameAt (pinPage RS_FIFO p d n).2.1 p.occupiedFrameCount).pageNum
         = n ∧
       (∀ i, i ≠ p.occupiedFrameCount →
         (frameAt (pinPage RS_FIFO p d n).2.1 i).pageNum =
           (frameAt p i).pageNum) ∧
       (pinPage RS_FIFO p d n).2.1.occupiedFrameCount =
         p.occupiedFrameCount + 1)) :=
  ⟨Or.inl rfl, warmup_creation_order RS_FIFO (Or.inl rfl) 2 disk0
    [PoolOp.pin 1, PoolOp.unpin 1, PoolOp.pin 2]⟩
